import Mathlib

/-!
# doorbash/bridge — outbound adapters and address descriptors

A shallow embedding of `constant/metadata.go` and `adapter/outbound/*.go`.

Go strings are modelled as `List Char` (`GoString`).  The delimiters that the
address functions look at (`:`, `[`, `]`, `.`, hex digits) are ASCII, and an
ASCII byte never occurs inside a multi-byte UTF-8 sequence, so scanning
characters and scanning bytes agree.

The functions of Go's `net` package that `NewMetadata` and `RemoteAddress`
call (`SplitHostPort`, `JoinHostPort`, `ParseIP`, `IP.To4`, `IP.String`) are
transcribed from the standard library (`net/ipsock.go`, `net/ip.go`,
`net/parse.go`).
-/

set_option autoImplicit false

namespace Bridge

/-- Go `string`. -/
abbrev GoString := List Char

/-! ## Go errors -/

/-- Go `error` values that the adapters create or pass on.
`addrError why addr` is `&net.AddrError{Err: why, Addr: addr}`;
`new msg` is `errors.New(msg)` or a `fmt.Errorf` without `%w` (and any error
value handed back by an external package);
`wrap pre e` is `fmt.Errorf(pre + "%w", e)`. -/
inductive GoError where
  | addrError (why : GoString) (addr : GoString)
  | new (msg : GoString)
  | wrap (pre : GoString) (inner : GoError)
deriving DecidableEq, Repr

/-- The `Error()` method. -/
def GoError.Error : GoError → GoString
  | .addrError why addr =>
      if addr ≠ [] then "address ".toList ++ addr ++ ": ".toList ++ why else why
  | .new msg => msg
  | .wrap pre inner => pre ++ inner.Error

/-- The `Unwrap()` method (`nil` for errors that wrap nothing). -/
def GoError.Unwrap : GoError → Option GoError
  | .wrap _ inner => some inner
  | _ => none

/-- Membership in the `Unwrap` chain: `errors.Is(err, target)` for comparable errors. -/
def GoError.Is : GoError → GoError → Bool
  | .wrap pre inner, target => decide (GoError.wrap pre inner = target) || inner.Is target
  | e, target => decide (e = target)

/-! ## `net` package: host/port splitting -/

/-- Go `bytealg.IndexByteString(s, c)`: index of the first `c`, `none` for `-1`. -/
def indexByteString : GoString → Char → Option Nat
  | [], _ => none
  | x :: xs, c => if x = c then some 0 else (indexByteString xs c).map (· + 1)

/-- Go `last(s, c)` of `net/parse.go`: index of the last `c`, `none` for `-1`. -/
def last : GoString → Char → Option Nat
  | [], _ => none
  | x :: xs, c =>
    match last xs c with
    | some i => some (i + 1)
    | none => if x = c then some 0 else none

def missingPort : GoString := "missing port in address".toList
def tooManyColons : GoString := "too many colons in address".toList

/-- The tail of `net.SplitHostPort`: the two stray-bracket checks and the port
slice, with `j`, `k` the positions before which no bracket needs checking. -/
def splitHostPortTail (hostport host : GoString) (i j k : Nat) :
    Except GoError (GoString × GoString) :=
  if (indexByteString (hostport.drop j) '[').isSome then
    .error (.addrError "unexpected '[' in address".toList hostport)
  else if (indexByteString (hostport.drop k) ']').isSome then
    .error (.addrError "unexpected ']' in address".toList hostport)
  else
    .ok (host, hostport.drop (i + 1))

/-- Go `net.SplitHostPort`. -/
def SplitHostPort (hostport : GoString) : Except GoError (GoString × GoString) :=
  match last hostport ':' with
  | none => .error (.addrError missingPort hostport)
  | some i =>
    if hostport.head? = some '[' then
      match indexByteString hostport ']' with
      | none => .error (.addrError "missing ']' in address".toList hostport)
      | some e =>
        if e + 1 = hostport.length then
          .error (.addrError missingPort hostport)
        else if e + 1 = i then
          splitHostPortTail hostport ((hostport.take e).drop 1) i 1 (e + 1)
        else if hostport.get? (e + 1) = some ':' then
          .error (.addrError tooManyColons hostport)
        else
          .error (.addrError missingPort hostport)
    else
      let host := hostport.take i
      if (indexByteString host ':').isSome then
        .error (.addrError tooManyColons hostport)
      else
        splitHostPortTail hostport host i 0 0

/-- Go `net.JoinHostPort`. -/
def JoinHostPort (host port : GoString) : GoString :=
  if (indexByteString host ':').isSome then
    ['['] ++ host ++ [']', ':'] ++ port
  else
    host ++ [':'] ++ port

/-! ## `net` package: IP literals -/

/-- Go `net.IP`: a byte slice; `nil` is `Option.none` where it matters. -/
abbrev IP := List Nat

def IPv4len : Nat := 4
def IPv6len : Nat := 16

/-- Bound used by `dtoi`/`xtoi`. -/
def big : Nat := 0xFFFFFF

/-- The scanning loop of `dtoi`: `(n, i, ok)` where `ok = false` reports the overflow exit. -/
def dtoiLoop : GoString → Nat → Nat → Nat × Nat × Bool
  | [], n, i => (n, i, true)
  | c :: cs, n, i =>
    if '0'.toNat ≤ c.toNat ∧ c.toNat ≤ '9'.toNat then
      let n1 := n * 10 + (c.toNat - '0'.toNat)
      if n1 ≥ big then (big, i, false) else dtoiLoop cs n1 (i + 1)
    else (n, i, true)

/-- Go `dtoi` of `net/parse.go`: decimal to integer, with the number of characters consumed. -/
def dtoi (s : GoString) : Nat × Nat × Bool :=
  let r := dtoiLoop s 0 0
  if r.2.2 = false then r
  else if r.2.1 = 0 then (0, 0, false)
  else r

/-- The scanning loop of `xtoi`. -/
def xtoiLoop : GoString → Nat → Nat → Nat × Nat × Bool
  | [], n, i => (n, i, true)
  | c :: cs, n, i =>
    if '0'.toNat ≤ c.toNat ∧ c.toNat ≤ '9'.toNat then
      let n1 := n * 16 + (c.toNat - '0'.toNat)
      if n1 ≥ big then (0, i, false) else xtoiLoop cs n1 (i + 1)
    else if 'a'.toNat ≤ c.toNat ∧ c.toNat ≤ 'f'.toNat then
      let n1 := n * 16 + (c.toNat - 'a'.toNat) + 10
      if n1 ≥ big then (0, i, false) else xtoiLoop cs n1 (i + 1)
    else if 'A'.toNat ≤ c.toNat ∧ c.toNat ≤ 'F'.toNat then
      let n1 := n * 16 + (c.toNat - 'A'.toNat) + 10
      if n1 ≥ big then (0, i, false) else xtoiLoop cs n1 (i + 1)
    else (n, i, true)

/-- Go `xtoi` of `net/parse.go`: hexadecimal to integer. -/
def xtoi (s : GoString) : Nat × Nat × Bool :=
  let r := xtoiLoop s 0 0
  if r.2.2 = false then r
  else if r.2.1 = 0 then (0, r.2.1, false)
  else r

/-- The 12-byte prefix of an IPv4-mapped IPv6 address. -/
def v4InV6Prefix : IP := [0, 0, 0, 0, 0, 0, 0, 0, 0, 0, 0xff, 0xff]

/-- Go `net.IPv4(a, b, c, d)`: the 16-byte form of an IPv4 address. -/
def IPv4 (a b c d : Nat) : IP := v4InV6Prefix ++ [a, b, c, d]

/-- The loop of `parseIPv4`: `k` octets remain to be read, `first` tells whether
this is iteration `i = 0`.  Returns the octets and the unread rest. -/
def parseIPv4Loop : Nat → Bool → GoString → Option (List Nat × GoString)
  | 0, _, s => some ([], s)
  | k + 1, first, s =>
    if s = [] then none
    else
      let s1 : Option GoString :=
        if first then some s
        else if s.head? ≠ some '.' then none else some (s.drop 1)
      match s1 with
      | none => none
      | some s1 =>
        let r := dtoi s1
        if r.2.2 = false ∨ r.1 > 0xFF then none
        else if r.2.1 > 1 ∧ s1.head? = some '0' then none
        else
          match parseIPv4Loop k false (s1.drop r.2.1) with
          | none => none
          | some (p, rest) => some (r.1 :: p, rest)

/-- Go `parseIPv4`: dotted decimal; components with leading zeros are rejected. -/
def parseIPv4 (s : GoString) : Option IP :=
  match parseIPv4Loop IPv4len true s with
  | some ([a, b, c, d], []) => some (IPv4 a b c d)
  | _ => none

/-- The main loop of `parseIPv6`.  `ip` holds the bytes written so far (its
length is the index `i` of the original), `ellipsis` the position of `::`.
Returns the unread rest, the bytes and the ellipsis position on `break`. -/
def parseIPv6Loop : Nat → GoString → IP → Option Nat → Option (GoString × IP × Option Nat)
  | 0, s, ip, ellipsis => some (s, ip, ellipsis)
  | fuel + 1, s, ip, ellipsis =>
    if ip.length < IPv6len then
      let r := xtoi s
      if r.2.2 = false ∨ r.1 > 0xFFFF then none
      else if r.2.1 < s.length ∧ s.get? r.2.1 = some '.' then
        if ellipsis.isNone ∧ ip.length ≠ IPv6len - IPv4len then none
        else if ip.length + IPv4len > IPv6len then none
        else
          match parseIPv4 s with
          | none => none
          | some ip4 => some ([], ip ++ ip4.drop 12, ellipsis)
      else
        let ip1 := ip ++ [r.1 / 256, r.1 % 256]
        let s1 := s.drop r.2.1
        if s1 = [] then some (s1, ip1, ellipsis)
        else if s1.head? ≠ some ':' ∨ s1.length = 1 then none
        else
          let s2 := s1.drop 1
          if s2.head? = some ':' then
            if ellipsis.isSome then none
            else
              let s3 := s2.drop 1
              if s3 = [] then some (s3, ip1, some ip1.length)
              else parseIPv6Loop fuel s3 ip1 (some ip1.length)
          else parseIPv6Loop fuel s2 ip1 ellipsis
    else some (s, ip, ellipsis)

/-- The end of `parseIPv6`: the whole string must be used, and a short result
is completed by expanding the ellipsis with zero bytes. -/
def parseIPv6Finish (s : GoString) (ip : IP) (ellipsis : Option Nat) : Option IP :=
  if s ≠ [] then none
  else if ip.length < IPv6len then
    match ellipsis with
    | none => none
    | some e => some (ip.take e ++ List.replicate (IPv6len - ip.length) 0 ++ ip.drop e)
  else if ellipsis.isSome then none
  else some ip

/-- Go `parseIPv6`. -/
def parseIPv6 (s : GoString) : Option IP :=
  let lead : Bool := s.length ≥ 2 ∧ s.head? = some ':' ∧ s.get? 1 = some ':'
  let s0 := if lead then s.drop 2 else s
  let ellipsis : Option Nat := if lead then some 0 else none
  if lead ∧ s0 = [] then some (List.replicate IPv6len 0)
  else
    match parseIPv6Loop 9 s0 [] ellipsis with
    | none => none
    | some (s1, ip, e) => parseIPv6Finish s1 ip e

/-- Go `net.ParseIP`: the first `.` or `:` selects the IPv4 or IPv6 parser. -/
def ParseIPScan (s : GoString) : GoString → Option IP
  | [] => none
  | c :: cs =>
    if c = '.' then parseIPv4 s
    else if c = ':' then parseIPv6 s
    else ParseIPScan s cs

def ParseIP (s : GoString) : Option IP := ParseIPScan s s

/-- Go `IP.To4`: the 4-byte form, `none` (nil) when the address is not IPv4. -/
def IP.To4 (ip : IP) : Option IP :=
  if ip.length = IPv4len then some ip
  else if ip.length = IPv6len ∧ (ip.take 10).all (· = 0) ∧ ip.getD 10 0 = 0xff
      ∧ ip.getD 11 0 = 0xff then
    some ((ip.drop 12).take 4)
  else none

/-- Go `ubtoa`: decimal text of a byte. -/
def ubtoa (v : Nat) : GoString :=
  if v < 10 then [Char.ofNat (v + '0'.toNat)]
  else if v < 100 then [Char.ofNat (v / 10 + '0'.toNat), Char.ofNat (v % 10 + '0'.toNat)]
  else [Char.ofNat (v / 100 + '0'.toNat), Char.ofNat ((v / 10) % 10 + '0'.toNat),
        Char.ofNat (v % 10 + '0'.toNat)]

def hexDigit : GoString := "0123456789abcdef".toList

/-- The digit loop of `appendHex`, `j` running from `k - 1` down to `0`. -/
def appendHexLoop (i : Nat) : Nat → GoString
  | 0 => []
  | k + 1 =>
    let v := i / 2 ^ (k * 4)
    (if v > 0 then [hexDigit.getD (v % 16) '0'] else []) ++ appendHexLoop i k

/-- Go `appendHex`: lower-case hexadecimal without leading zeros. -/
def appendHex (i : Nat) : GoString :=
  if i = 0 then ['0'] else appendHexLoop i 8

/-- Inner loop of the zero-run search of `IP.String`. -/
def zeroRunEnd (p : IP) : Nat → Nat → Nat
  | 0, j => j
  | fuel + 1, j =>
    if j < IPv6len ∧ p.getD j 0 = 0 ∧ p.getD (j + 1) 0 = 0 then zeroRunEnd p fuel (j + 2)
    else j

/-- Outer loop of the zero-run search: `(e0, e1)` is the longest run so far. -/
def longestZeroRun (p : IP) : Nat → Nat → Int × Int → Int × Int
  | 0, _, e => e
  | fuel + 1, i, e =>
    if i < IPv6len then
      let j := zeroRunEnd p 8 i
      if j > i ∧ (j : Int) - (i : Int) > e.2 - e.1 then
        longestZeroRun p fuel (j + 2) ((i : Int), (j : Int))
      else longestZeroRun p fuel (i + 2) e
    else e

/-- The printing loop of `IP.String` for a 16-byte address. -/
def printIPv6Loop (p : IP) (e0 e1 : Int) : Nat → Nat → GoString
  | 0, _ => []
  | fuel + 1, i =>
    if i < IPv6len then
      if (i : Int) = e0 then
        let i1 := e1.toNat
        if i1 ≥ IPv6len then [':', ':']
        else [':', ':'] ++ appendHex (p.getD i1 0 * 256 + p.getD (i1 + 1) 0)
              ++ printIPv6Loop p e0 e1 fuel (i1 + 2)
      else
        (if i > 0 then [':'] else []) ++ appendHex (p.getD i 0 * 256 + p.getD (i + 1) 0)
          ++ printIPv6Loop p e0 e1 fuel (i + 2)
    else []

/-- Go `hexString`, used by `IP.String` for slices of an odd length. -/
def hexString (b : IP) : GoString :=
  b.flatMap fun x => [hexDigit.getD (x / 16) '0', hexDigit.getD (x % 16) '0']

/-- Go `IP.String`. -/
def IP.String (ip : IP) : GoString :=
  if ip.length = 0 then "<nil>".toList
  else
    match IP.To4 ip with
    | some [a, b, c, d] => ubtoa a ++ ['.'] ++ ubtoa b ++ ['.'] ++ ubtoa c ++ ['.'] ++ ubtoa d
    | _ =>
      if ip.length ≠ IPv6len then ['?'] ++ hexString ip
      else
        let e := longestZeroRun ip 8 0 (-1, -1)
        let e := if e.2 - e.1 ≤ 2 then ((-1 : Int), (-1 : Int)) else e
        printIPv6Loop ip e.1 e.2 8 0

/-! ## `constant/metadata.go` -/

def ATypIPv4 : Nat := 1
def ATypDomainName : Nat := 3
def ATypIPv6 : Nat := 4

/-- Go `NetWork`: an `int`.  `TCP` and `UDP` continue the `iota` of the constant
block that starts with the three address types, hence 3 and 4. -/
abbrev NetWork := Nat
def TCP : NetWork := 3
def UDP : NetWork := 4

/-- Go `Metadata`; `DstIP = none` is the nil slice. -/
structure Metadata where
  NetWork : NetWork := 0
  DstIP : Option IP := none
  DstPort : GoString := []
  AddrType : Nat := 0
  Host : GoString := []
deriving DecidableEq, Repr

/-- Go `(*Metadata).String`. -/
def Metadata.String (m : Metadata) : GoString :=
  if m.Host ≠ [] then m.Host
  else
    match m.DstIP with
    | some ip => IP.String ip
    | none => "<nil>".toList

/-- Go `(*Metadata).RemoteAddress`. -/
def Metadata.RemoteAddress (m : Metadata) : GoString :=
  JoinHostPort m.String m.DstPort

/-- Go `(*Metadata).Resolved`. -/
def Metadata.Resolved (m : Metadata) : Bool := m.DstIP.isSome

/-- Go `(*Metadata).Valid`. -/
def Metadata.Valid (m : Metadata) : Bool := decide (m.Host ≠ []) || m.DstIP.isSome

/-- Go `NewMetadata`. -/
def NewMetadata (addr : GoString) : Except GoError Metadata :=
  match SplitHostPort addr with
  | .error err => .error err
  | .ok (host, port) =>
    let md : Metadata := {}
    let md : Metadata :=
      match ParseIP host with
      | none => { md with Host := host }
      | some ip =>
        match IP.To4 ip with
        | some ipv4 => { md with DstIP := some ipv4, AddrType := ATypIPv4 }
        | none => { md with DstIP := some ip, AddrType := ATypIPv6 }
    .ok { md with DstPort := port }

/-! ## Values that the adapters handle

Connections are modelled by how they were built: every wrapper the adapters
put around a connection is a constructor.  Connections that come out of code
outside `adapter/outbound` and `constant` (the operating-system dialer, the TLS,
websocket and trojan components) are whatever the environment hands back. -/

/-- Go `[]byte`. -/
abbrev Bytes := List Nat

/-- Go `*net.UDPAddr` (the pointer is an `Option`). -/
structure UDPAddr where
  IP : IP
  Port : Int
deriving DecidableEq, Repr

/-- The fields of `tls.Config` that the adapters set. -/
structure TLSConfig where
  InsecureSkipVerify : Bool
  ServerName : GoString
deriving DecidableEq, Repr

/-- Go `socks5.User`. -/
structure User where
  Username : GoString
  Password : GoString
deriving DecidableEq, Repr

/-- Go `simpleObfsOption`. -/
structure simpleObfsOption where
  Mode : GoString := []
  Host : GoString := []
deriving DecidableEq, Repr

/-- Go `v2rayObfsOption`, the decoded plugin options of `v2ray-plugin`. -/
structure v2rayObfsOption where
  Mode : GoString := []
  Host : GoString := []
  Path : GoString := []
  TLS : Bool := false
  Headers : List (GoString × GoString) := []
  SkipCertVerify : Bool := false
  Mux : Bool := false
deriving DecidableEq, Repr

/-- Go `v2rayObfs.Option` as filled in by `NewShadowSocks` (the session cache is
the process-wide one). -/
structure V2rayOption where
  Host : GoString
  Path : GoString
  Headers : List (GoString × GoString)
  Mux : Bool
  TLS : Bool := false
  SkipCertVerify : Bool := false
deriving DecidableEq, Repr

/-- Go `*core.StreamCipher`: its key and IV size. -/
structure StreamCipher where
  Key : Bytes
  IVSize : Nat
deriving DecidableEq, Repr

/-- A `core.Cipher` interface value, by dynamic type: nil, a
`*core.StreamCipher`, or any other implementation (AEAD, dummy). -/
inductive Cipher where
  | nil
  | stream (ciph : StreamCipher)
  | other (id : Nat)
deriving DecidableEq, Repr

/-- An `obfs.Obfs` value of ShadowsocksR, with what `GetObfsOverhead` reports. -/
structure Obfs where
  id : Nat
  overhead : Int
deriving DecidableEq, Repr

/-- A `protocol.Protocol` value of ShadowsocksR, with what
`GetProtocolOverhead` reports and what `SetOverhead` stored. -/
structure Protocol where
  id : Nat
  protocolOverhead : Int
  overhead : Int
deriving DecidableEq, Repr

/-- Go `trojan.Option` as filled in by `NewTrojan`. -/
structure TrojanInstanceOption where
  Password : GoString
  ALPN : List GoString
  ServerName : GoString
  SkipCertVerify : Bool
deriving DecidableEq, Repr

/-- Go `*trojan.Trojan`, the value `trojan.New(option)` returns. -/
structure TrojanInstance where
  option : TrojanInstanceOption
deriving DecidableEq, Repr

/-- A `C.Chain`: adapter names. -/
abbrev Chain := List GoString

/-- A `net.Conn` interface value. -/
inductive NetConn where
  /-- The nil interface. -/
  | nil
  /-- A connection made outside the adapters. -/
  | raw (id : Nat)
  /-- The result of `tls.Client(c, config)`. -/
  | tlsClient (c : NetConn) (config : Option TLSConfig)
  /-- The result of `obfs.NewTLSObfs(c, host)`. -/
  | tlsObfs (c : NetConn) (host : GoString)
  /-- The result of `obfs.NewHTTPObfs(c, host, port)`. -/
  | httpObfs (c : NetConn) (host port : GoString)
  /-- The result of `cipher.StreamConn(c)`. -/
  | cipherStream (c : NetConn) (cipher : Cipher)
  /-- The result of `obfs.NewConn(c, o)` of ShadowsocksR. -/
  | ssrObfs (c : NetConn) (o : Obfs)
  /-- The result of `protocol.NewConn(c, p, iv)` of ShadowsocksR. -/
  | ssrProtocol (c : NetConn) (p : Protocol) (iv : Bytes)
  /-- The type `*conn` of `base.go`: a connection with its chain. -/
  | conn (c : NetConn) (chain : Chain)
deriving DecidableEq, Repr

/-- The type `conn` of `base.go`; `Option conn` is a `C.Conn` interface value. -/
structure conn where
  Conn : NetConn
  chain : Chain
deriving DecidableEq, Repr

/-- Go `(*conn).Chains`. -/
def conn.Chains (c : conn) : Chain := c.chain

/-- A `C.Conn` used where a `net.Conn` is expected. -/
def conn.toNetConn : Option conn → NetConn
  | none => .nil
  | some c => .conn c.Conn c.chain

/-- A `net.PacketConn` interface value. -/
inductive NetPacketConn where
  /-- The nil interface. -/
  | nil
  /-- A datagram socket made outside the adapters. -/
  | raw (id : Nat)
  /-- The type `dPacketConn` of `direct.go`. -/
  | dPacketConn (pc : NetPacketConn) (rAddr : Option UDPAddr)
  /-- The result of `cipher.PacketConn(pc)`. -/
  | cipherPacket (pc : NetPacketConn) (cipher : Cipher)
  /-- The result of `protocol.NewPacketConn(pc, p)` of ShadowsocksR. -/
  | ssrProtocolPacket (pc : NetPacketConn) (p : Protocol)
  /-- The type `ssPacketConn` of `shadowsocks.go`. -/
  | ssPacketConn (pc : NetPacketConn) (rAddr : Option UDPAddr)
  /-- The type `socksPacketConn` of `socks5.go`. -/
  | socksPacketConn (pc : NetPacketConn) (rAddr : Option UDPAddr) (tcpConn : NetConn)
  /-- The result of `(*trojan.Trojan).PacketConn(c)`. -/
  | trojanPacket (c : NetConn)
  /-- The type `*packetConn` of `base.go`: a datagram socket with its chain. -/
  | packetConn (pc : NetPacketConn) (chain : Chain)
deriving DecidableEq, Repr

/-- The type `packetConn` of `base.go`; `Option packetConn` is a
`C.PacketConn` interface value. -/
structure packetConn where
  PacketConn : NetPacketConn
  chain : Chain
deriving DecidableEq, Repr

/-- Go `(*packetConn).Chains`. -/
def packetConn.Chains (c : packetConn) : Chain := c.chain

/-- A `C.PacketConn` used where a `net.PacketConn` is expected. -/
def packetConn.toNetPacketConn : Option packetConn → NetPacketConn
  | none => .nil
  | some c => .packetConn c.PacketConn c.chain

/-- Go `constant.UdpConn`. -/
structure UdpConn where
  PacketConn : Option packetConn
  Addr : Option UDPAddr
deriving DecidableEq, Repr

/-- Go `(UdpConn).RemoteAddr`. -/
def UdpConn.RemoteAddr (u : UdpConn) : Option UDPAddr := u.Addr

/-! ## Adapters -/

/-- Modelled from the spec: the type `C.AdapterType`, whose declaration
(`constant/adapters.go`) is not among the sources; the spec gives the
enumerated tag Direct, Socks5, Shadowsocks, ShadowsocksR, Trojan. -/
inductive AdapterType where
  | Direct
  | Socks5
  | Shadowsocks
  | ShadowsocksR
  | Trojan
deriving DecidableEq, Repr

/-- Go `Base` without its `dialer` field, which is kept next to it in
`ProxyAdapter` so that the chain of upstream adapters is a plain recursive
type. -/
structure Base where
  name : GoString := []
  addr : GoString := []
  addrMetadata : Option Metadata := none
  tp : AdapterType
  udp : Bool := false
deriving DecidableEq, Repr

/-- Go `Direct`. -/
structure Direct where
  Base : Base
deriving DecidableEq, Repr

/-- Go `Socks5`. -/
structure Socks5 where
  Base : Base
  user : GoString
  pass : GoString
  tls : Bool
  skipCertVerify : Bool
  tlsConfig : Option TLSConfig
deriving DecidableEq, Repr

/-- Go `ShadowSocks`. -/
structure ShadowSocks where
  Base : Base
  cipher : Cipher
  obfsMode : GoString
  obfsOption : Option simpleObfsOption
  v2rayOption : Option V2rayOption
deriving DecidableEq, Repr

/-- Go `ShadowSocksR`. -/
structure ShadowSocksR where
  Base : Base
  cipher : StreamCipher
  obfs : Obfs
  protocol : Protocol
deriving DecidableEq, Repr

/-- Go `Trojan`; the field `inst` is `instance` in the source. -/
structure Trojan where
  Base : Base
  inst : TrojanInstance
deriving DecidableEq, Repr

/-- A `C.ProxyAdapter` interface value: nil, or one of the five adapters
together with the `dialer` field of its `Base`.  Upstream adapters form a
finite chain (a cyclic `SetDialer` wiring is not representable). -/
inductive ProxyAdapter where
  | nil
  | Direct (d : Direct) (dialer : ProxyAdapter)
  | Socks5 (ss : Socks5) (dialer : ProxyAdapter)
  | ShadowSocks (ss : ShadowSocks) (dialer : ProxyAdapter)
  | ShadowSocksR (ssr : ShadowSocksR) (dialer : ProxyAdapter)
  | Trojan (t : Trojan) (dialer : ProxyAdapter)
deriving DecidableEq, Repr

/-- The embedded `*Base` of an adapter (nil has none). -/
def ProxyAdapter.base : ProxyAdapter → Option Base
  | .nil => none
  | .Direct d _ => some d.Base
  | .Socks5 ss _ => some ss.Base
  | .ShadowSocks ss _ => some ss.Base
  | .ShadowSocksR ssr _ => some ssr.Base
  | .Trojan t _ => some t.Base

/-- Go `(*Base).Name`. -/
def ProxyAdapter.Name (a : ProxyAdapter) : GoString :=
  match a.base with
  | some b => b.name
  | none => []

/-- Go `(*Base).Addr`. -/
def ProxyAdapter.Addr (a : ProxyAdapter) : GoString :=
  match a.base with
  | some b => b.addr
  | none => []

/-- Go `(*Base).Type`. -/
def ProxyAdapter.Type (a : ProxyAdapter) : Option AdapterType :=
  a.base.map (·.tp)

/-- Go `(*Base).SupportUDP`. -/
def ProxyAdapter.SupportUDP (a : ProxyAdapter) : Bool :=
  match a.base with
  | some b => b.udp
  | none => false

/-- The `dialer` field of the adapter's `Base`. -/
def ProxyAdapter.dialer : ProxyAdapter → ProxyAdapter
  | .nil => .nil
  | .Direct _ dialer => dialer
  | .Socks5 _ dialer => dialer
  | .ShadowSocks _ dialer => dialer
  | .ShadowSocksR _ dialer => dialer
  | .Trojan _ dialer => dialer

/-- Go `(*Base).SetDialer`. -/
def ProxyAdapter.SetDialer : ProxyAdapter → ProxyAdapter → ProxyAdapter
  | .nil, _ => .nil
  | .Direct d _, dialer => .Direct d dialer
  | .Socks5 ss _, dialer => .Socks5 ss dialer
  | .ShadowSocks ss _, dialer => .ShadowSocks ss dialer
  | .ShadowSocksR ssr _, dialer => .ShadowSocksR ssr dialer
  | .Trojan t _, dialer => .Trojan t dialer

/-- Go `NewConn`. -/
def NewConn (c : NetConn) (a : ProxyAdapter) : conn :=
  { Conn := c, chain := [a.Name] }

/-- Go `(*conn).AppendToChains`. -/
def conn.AppendToChains (c : conn) (a : ProxyAdapter) : conn :=
  { c with chain := c.chain ++ [a.Name] }

/-- Go `newPacketConn`. -/
def newPacketConn (pc : NetPacketConn) (a : ProxyAdapter) : packetConn :=
  { PacketConn := pc, chain := [a.Name] }

/-- Go `(*packetConn).AppendToChains`. -/
def packetConn.AppendToChains (c : packetConn) (a : ProxyAdapter) : packetConn :=
  { c with chain := c.chain ++ [a.Name] }

/-! ## The environment

Everything the adapters call outside `adapter/outbound` and `constant` is a
field of `Env`: the operating-system dialer (`component/dialer`), the helpers
of `util.go`, the handshakes of the protocol components, the HTTP client and
the resolver of the standard library.  Operations with an effect take and
return the state of the outside world `W`, so that the order and number of
calls is part of what a function computes. -/

/-- The outcome of running a Go function that returns `(value, error)`:
a run-time panic (nil dereference), or the pair together with the world it
leaves behind.  The value may be nil and the error may be nil independently. -/
inductive Res (W α : Type) where
  | fault : Res W α
  | ret (val : α) (err : Option GoError) (w : W) : Res W α

/-- An `*http.Response`. -/
structure Response where
  id : Nat
deriving DecidableEq, Repr

def CmdConnect : Nat := 1
def CmdUDPAssociate : Nat := 3
def CommandTCP : Nat := 1
def CommandUDP : Nat := 3

structure Env (W : Type) where
  /-- Go `dialer.DialContext(ctx, "tcp", address)` of `component/dialer`. -/
  dialContext : GoString → W → (NetConn × Option GoError) × W
  /-- Go `dialer.ListenPacket("udp", "")` of `component/dialer`. -/
  listenPacket : W → (NetPacketConn × Option GoError) × W
  /-- Go `tcpKeepAlive(c)` of `util.go`. -/
  tcpKeepAlive : NetConn → W → W
  /-- Go `resolveUDPAddr("udp", address)` of `util.go`. -/
  resolveUDPAddr : GoString → W → (Option UDPAddr × Option GoError) × W
  /-- Go `serializesSocksAddr(metadata)` of `util.go`; `none` when the call faults. -/
  serializesSocksAddr : Option Metadata → Option Bytes
  /-- Go `(*tls.Conn).Handshake`. -/
  Handshake : NetConn → W → Option GoError × W
  /-- Go `socks5.ClientHandshake(c, addr, command, user)`. -/
  ClientHandshake : NetConn → Bytes → Nat → Option User → W → (Bytes × Option GoError) × W
  /-- Go `(socks5.Addr).String`. -/
  addrString : Bytes → GoString
  /-- Go `(socks5.Addr).UDPAddr`. -/
  addrUDPAddr : Bytes → Option UDPAddr
  /-- Go `v2rayObfs.NewV2rayObfs(c, option)`. -/
  NewV2rayObfs : NetConn → Option V2rayOption → W → (NetConn × Option GoError) × W
  /-- Go `c.Write(b)`, the error only. -/
  Write : NetConn → Bytes → W → Option GoError × W
  /-- Whether the dynamic type of a connection is `*shadowstream.Conn`. -/
  isShadowstreamConn : NetConn → Bool
  /-- Go `(*shadowstream.Conn).ObtainWriteIV`. -/
  ObtainWriteIV : NetConn → W → (Bytes × Option GoError) × W
  /-- Go `(*trojan.Trojan).StreamConn(c)`. -/
  trojanStreamConn : TrojanInstance → NetConn → W → (NetConn × Option GoError) × W
  /-- Go `(*trojan.Trojan).WriteHeader(c, command, addr)`. -/
  trojanWriteHeader : TrojanInstance → NetConn → Nat → Bytes → W → Option GoError × W
  /-- Go `c.Close()`. -/
  Close : NetConn → W → W
  /-- Starting the background task of `Socks5.DialUDP` that drains the
  control connection and then closes both. -/
  goDrain : NetConn → NetPacketConn → W → W
  /-- Go `urlToMetadata(URL)` of `util.go`. -/
  urlToMetadata : GoString → Metadata × Option GoError
  /-- Go `(*net.Resolver).LookupIP(ctx, "ip", host)` for a resolver with the given
  `Dial` function. -/
  LookupIP : (W → Res W (Option UdpConn)) → GoString → W → Res W (List IP)
  /-- Go `http.NewRequest("GET", URL, nil)`, the error only. -/
  NewRequest : GoString → Option GoError
  /-- Go `(*http.Client).Do(req)` for a client whose transport dials with the
  given function; the state it threads holds the variable `metadata` that the
  dial function of `URLTest` captures. -/
  Do : (Metadata × W → Res (Metadata × W) NetConn) → GoString → Metadata × W →
    Res (Metadata × W) Response
  /-- Go `time.Since(sTime).Milliseconds()`, `sTime` having been read in the first world. -/
  sinceMilliseconds : W → W → Int
  /-- Go `ioutil.ReadAll(resp.Body)`, the bytes read given as a string. -/
  ReadAll : Response → W → (GoString × Option GoError) × W
  /-- Go `resp.Body.Close()`. -/
  bodyClose : Response → W → W

section Dial

variable {W : Type}

/-! ## `base.go`: the defaults of `Base` -/

/-- Go `(*Base).StreamConn`. -/
def Base.StreamConn (_b : Base) (c : NetConn) (_metadata : Option Metadata) (w : W) :
    Res W NetConn :=
  .ret c (some (.new "no support".toList)) w

/-- Go `(*Base).DialUDP`. -/
def Base.DialUDP (_b : Base) (_metadata : Option Metadata) (w : W) :
    Res W (Option packetConn) :=
  .ret none (some (.new "no support".toList)) w

/-! ## `StreamConn` of the five adapters -/

/-- Go `(*Direct).StreamConn`. -/
def Direct.StreamConn (_d : Direct) (c : NetConn) (_metadata : Option Metadata) (w : W) :
    Res W NetConn :=
  .ret c none w

/-- The `socks5.User` that `Socks5` passes to the handshake. -/
def Socks5.userOf (ss : Socks5) : Option User :=
  if ss.user ≠ [] then some { Username := ss.user, Password := ss.pass } else none

/-- The part of `(*Socks5).StreamConn` after the optional TLS handshake. -/
def Socks5.connectHandshake (env : Env W) (ss : Socks5) (c : NetConn)
    (metadata : Option Metadata) (w : W) : Res W NetConn :=
  match env.serializesSocksAddr metadata with
  | none => .fault
  | some b =>
    let r := env.ClientHandshake c b CmdConnect ss.userOf w
    match r.1.2 with
    | some err => .ret .nil (some err) r.2
    | none => .ret c none r.2

/-- Go `(*Socks5).StreamConn`. -/
def Socks5.StreamConn (env : Env W) (ss : Socks5) (c : NetConn)
    (metadata : Option Metadata) (w : W) : Res W NetConn :=
  if ss.tls then
    let cc := NetConn.tlsClient c ss.tlsConfig
    let h := env.Handshake cc w
    match h.1 with
    | some err => .ret .nil (some (.wrap (ss.Base.addr ++ " connect error: ".toList) err)) h.2
    | none => ss.connectHandshake env cc metadata h.2
  else ss.connectHandshake env c metadata w

/-- The part of `(*ShadowSocks).StreamConn` after the obfuscation switch. -/
def ShadowSocks.cipherAndAddr (env : Env W) (ss : ShadowSocks) (c : NetConn)
    (metadata : Option Metadata) (w : W) : Res W NetConn :=
  match ss.cipher with
  | .nil => .fault
  | ciph =>
    let c1 := NetConn.cipherStream c ciph
    match env.serializesSocksAddr metadata with
    | none => .fault
    | some b =>
      let r := env.Write c1 b w
      .ret c1 r.1 r.2

/-- Go `(*ShadowSocks).StreamConn`. -/
def ShadowSocks.StreamConn (env : Env W) (ss : ShadowSocks) (c : NetConn)
    (metadata : Option Metadata) (w : W) : Res W NetConn :=
  if ss.obfsMode = "tls".toList then
    match ss.obfsOption with
    | none => .fault
    | some o => ss.cipherAndAddr env (.tlsObfs c o.Host) metadata w
  else if ss.obfsMode = "http".toList then
    let port : GoString :=
      match SplitHostPort ss.Base.addr with
      | .ok hp => hp.2
      | .error _ => []
    match ss.obfsOption with
    | none => .fault
    | some o => ss.cipherAndAddr env (.httpObfs c o.Host port) metadata w
  else if ss.obfsMode = "websocket".toList then
    let r := env.NewV2rayObfs c ss.v2rayOption w
    match r.1.2 with
    | some err => .ret .nil (some (.wrap (ss.Base.addr ++ " connect error: ".toList) err)) r.2
    | none => ss.cipherAndAddr env r.1.1 metadata r.2
  else ss.cipherAndAddr env c metadata w

/-- Go `(*ShadowSocksR).StreamConn`. -/
def ShadowSocksR.StreamConn (env : Env W) (ssr : ShadowSocksR) (c : NetConn)
    (metadata : Option Metadata) (w : W) : Res W NetConn :=
  let c1 := NetConn.ssrObfs c ssr.obfs
  let c2 := NetConn.cipherStream c1 (.stream ssr.cipher)
  if env.isShadowstreamConn c2 = false then
    .ret .nil (some (.new "invalid connection type".toList)) w
  else
    let iv := env.ObtainWriteIV c2 w
    match iv.1.2 with
    | some err => .ret .nil (some err) iv.2
    | none =>
      let c3 := NetConn.ssrProtocol c2 ssr.protocol iv.1.1
      match env.serializesSocksAddr metadata with
      | none => .fault
      | some b =>
        let r := env.Write c3 b iv.2
        .ret c3 r.1 r.2

/-- Go `(*Trojan).StreamConn`. -/
def Trojan.StreamConn (env : Env W) (t : Trojan) (c : NetConn)
    (metadata : Option Metadata) (w : W) : Res W NetConn :=
  let r := env.trojanStreamConn t.inst c w
  match r.1.2 with
  | some err => .ret .nil (some (.wrap (t.Base.addr ++ " connect error: ".toList) err)) r.2
  | none =>
    match env.serializesSocksAddr metadata with
    | none => .fault
    | some b =>
      let h := env.trojanWriteHeader t.inst r.1.1 CommandTCP b r.2
      .ret r.1.1 h.1 h.2

/-- Go `StreamConn` through the interface. -/
def ProxyAdapter.StreamConn (env : Env W) (a : ProxyAdapter) (c : NetConn)
    (metadata : Option Metadata) (w : W) : Res W NetConn :=
  match a with
  | .nil => .fault
  | .Direct d _ => d.StreamConn c metadata w
  | .Socks5 ss _ => ss.StreamConn env c metadata w
  | .ShadowSocks ss _ => ss.StreamConn env c metadata w
  | .ShadowSocksR ssr _ => ssr.StreamConn env c metadata w
  | .Trojan t _ => t.StreamConn env c metadata w

/-! ## `DialContext` -/

/-- Go `DialContext` through the interface; one clause per adapter.  Calling it
on the nil interface (an unset `dialer`) is a nil dereference. -/
def ProxyAdapter.DialContext (env : Env W) :
    ProxyAdapter → Option Metadata → W → Res W (Option conn)
  | .nil, _, _ => .fault
  | .Direct d dialer, metadata, w =>
    match metadata with
    | none => .fault
    | some m =>
      let r := env.dialContext m.RemoteAddress w
      match r.1.2 with
      | some err => .ret none (some (.wrap (d.Base.addr ++ " connect error: ".toList) err)) r.2
      | none => .ret (some (NewConn r.1.1 (.Direct d dialer))) none (env.tcpKeepAlive r.1.1 r.2)
  | .Socks5 ss dialer, metadata, w =>
    match dialer.DialContext env ss.Base.addrMetadata w with
    | .fault => .fault
    | .ret _ (some err) w1 => .ret none (some err) w1
    | .ret con none w1 =>
      match ss.StreamConn env (conn.toNetConn con) metadata w1 with
      | .fault => .fault
      | .ret _ (some err) w2 => .ret none (some err) w2
      | .ret c none w2 => .ret (some (NewConn c (.Socks5 ss dialer))) none w2
  | .ShadowSocks ss dialer, metadata, w =>
    match dialer.DialContext env ss.Base.addrMetadata w with
    | .fault => .fault
    | .ret _ (some err) w1 => .ret none (some err) w1
    | .ret con none w1 =>
      match ss.StreamConn env (conn.toNetConn con) metadata w1 with
      | .fault => .fault
      | .ret c err w2 => .ret (some (NewConn c (.ShadowSocks ss dialer))) err w2
  | .ShadowSocksR ssr dialer, metadata, w =>
    match dialer.DialContext env ssr.Base.addrMetadata w with
    | .fault => .fault
    | .ret _ (some err) w1 => .ret none (some err) w1
    | .ret con none w1 =>
      match ssr.StreamConn env (conn.toNetConn con) metadata w1 with
      | .fault => .fault
      | .ret c err w2 => .ret (some (NewConn c (.ShadowSocksR ssr dialer))) err w2
  | .Trojan t dialer, metadata, w =>
    match dialer.DialContext env t.Base.addrMetadata w with
    | .fault => .fault
    | .ret _ (some err) w1 => .ret none (some err) w1
    | .ret con none w1 =>
      match t.StreamConn env (conn.toNetConn con) metadata w1 with
      | .fault => .fault
      | .ret _ (some err) w2 => .ret none (some err) w2
      | .ret c none w2 => .ret (some (NewConn c (.Trojan t dialer))) none w2

/-! ## `DialUDP` -/

/-- Go `DialUDP` through the interface; one clause per adapter. -/
def ProxyAdapter.DialUDP (env : Env W) :
    ProxyAdapter → Option Metadata → W → Res W (Option packetConn)
  | .nil, _, _ => .fault
  | .Direct d dialer, metadata, w =>
    let r := env.listenPacket w
    match r.1.2 with
    | some err => .ret none (some err) r.2
    | none =>
      match metadata with
      | none => .fault
      | some m =>
        let a := env.resolveUDPAddr m.RemoteAddress r.2
        match a.1.2 with
        | some err => .ret none (some err) a.2
        | none =>
          .ret (some (newPacketConn (.dPacketConn r.1.1 a.1.1) (.Direct d dialer))) none a.2
  | .Socks5 ss dialer, metadata, w =>
    match dialer.DialContext env ss.Base.addrMetadata w with
    | .fault => .fault
    | .ret _ (some err) w1 => .ret none (some err) w1
    | .ret con none w1 =>
      let c : NetConn :=
        if ss.tls then .tlsClient (conn.toNetConn con) ss.tlsConfig else conn.toNetConn con
      let w2 : W := if ss.tls then (env.Handshake c w1).2 else w1
      match env.serializesSocksAddr metadata with
      | none => .fault
      | some b =>
        let hs := env.ClientHandshake c b CmdUDPAssociate ss.userOf w2
        match hs.1.2 with
        | some err =>
          .ret none (some (.wrap "client hanshake error: ".toList err)) (env.Close c hs.2)
        | none =>
          match NewMetadata (env.addrString hs.1.1) with
          | .error err => .ret none (some err) (env.Close c hs.2)
          | .ok md =>
            match dialer.DialUDP env (some md) hs.2 with
            | .fault => .fault
            | .ret pc _ w3 =>
              .ret (some (newPacketConn
                  (.socksPacketConn (packetConn.toNetPacketConn pc) (env.addrUDPAddr hs.1.1) c)
                  (.Socks5 ss dialer)))
                none (env.goDrain c (packetConn.toNetPacketConn pc) w3)
  | .ShadowSocks ss dialer, _, w =>
    match dialer.DialUDP env ss.Base.addrMetadata w with
    | .fault => .fault
    | .ret _ (some err) w1 => .ret none (some err) w1
    | .ret pk none w1 =>
      let a := env.resolveUDPAddr ss.Base.addr w1
      match a.1.2 with
      | some err => .ret none (some err) a.2
      | none =>
        match ss.cipher with
        | .nil => .fault
        | ciph =>
          .ret (some (newPacketConn
              (.ssPacketConn (.cipherPacket (packetConn.toNetPacketConn pk) ciph) a.1.1)
              (.ShadowSocks ss dialer)))
            none a.2
  | .ShadowSocksR ssr dialer, _, w =>
    match dialer.DialUDP env ssr.Base.addrMetadata w with
    | .fault => .fault
    | .ret _ (some err) w1 => .ret none (some err) w1
    | .ret pk none w1 =>
      let a := env.resolveUDPAddr ssr.Base.addr w1
      match a.1.2 with
      | some err => .ret none (some err) a.2
      | none =>
        .ret (some (newPacketConn
            (.ssPacketConn
              (.ssrProtocolPacket
                (.cipherPacket (packetConn.toNetPacketConn pk) (.stream ssr.cipher)) ssr.protocol)
              a.1.1)
            (.ShadowSocksR ssr dialer)))
          none a.2
  | .Trojan t dialer, metadata, w =>
    match dialer.DialContext env t.Base.addrMetadata w with
    | .fault => .fault
    | .ret _ (some err) w1 => .ret none (some err) w1
    | .ret con none w1 =>
      let r := env.trojanStreamConn t.inst (conn.toNetConn con) w1
      match r.1.2 with
      | some err => .ret none (some (.wrap (t.Base.addr ++ " connect error: ".toList) err)) r.2
      | none =>
        match env.serializesSocksAddr metadata with
        | none => .fault
        | some b =>
          let h := env.trojanWriteHeader t.inst r.1.1 CommandUDP b r.2
          match h.1 with
          | some err => .ret none (some err) h.2
          | none => .ret (some (newPacketConn (.trojanPacket r.1.1) (.Trojan t dialer))) none h.2

end Dial

/-! ## Constructors of the adapters -/

/-- Go `strconv.Itoa`. -/
def Itoa (n : Int) : GoString := (toString n).toList

/-- A value of a loosely typed option map (`interface{}`). -/
inductive OptValue where
  | str (s : GoString)
  | bool (b : Bool)
  | int (n : Int)
  | strMap (m : List (GoString × GoString))
deriving DecidableEq, Repr

/-- Go `map[string]interface{}`. -/
abbrev PluginOpts := List (GoString × OptValue)

/-- Go `obfs.Base` as filled in by `NewShadowSocksR`. -/
structure ObfsBase where
  IVSize : Nat
  Key : Bytes
  HeadLen : Int
  Host : GoString
  Port : Int
  Param : GoString
deriving DecidableEq, Repr

/-- Go `protocol.Base` as filled in by `NewShadowSocksR`. -/
structure ProtocolBase where
  IV : Option Bytes
  Key : Bytes
  TCPMss : Int
  Param : GoString
deriving DecidableEq, Repr

/-- The pure functions of other packages that the constructors call. -/
structure Lib where
  /-- Go `core.PickCipher(name, nil, password)` of go-shadowsocks2. -/
  PickCipher : GoString → GoString → Cipher × Option GoError
  /-- Go `obfs.PickObfs(name, base)` of `component/ssr/obfs`. -/
  PickObfs : GoString → ObfsBase → Obfs × Option GoError
  /-- Go `protocol.PickProtocol(name, base)` of `component/ssr/protocol`. -/
  PickProtocol : GoString → ProtocolBase → Protocol × Option GoError
  /-- Go `decoder.Decode(pluginOpts, &opts)` for `simpleObfsOption`, `opts` holding the defaults. -/
  DecodeSimpleObfs : PluginOpts → simpleObfsOption → simpleObfsOption × Option GoError
  /-- Go `decoder.Decode(pluginOpts, &opts)` for `v2rayObfsOption`, `opts` holding the defaults. -/
  DecodeV2rayObfs : PluginOpts → v2rayObfsOption → v2rayObfsOption × Option GoError

/-- The pointer that `NewMetadata` returns next to its error: nil on failure. -/
def metadataPtr (r : Except GoError Metadata) : Option Metadata :=
  match r with
  | .ok md => some md
  | .error _ => none

/-- The error that `NewMetadata` returns next to its pointer. -/
def metadataErr (r : Except GoError Metadata) : Option GoError :=
  match r with
  | .ok _ => none
  | .error err => some err

/-- Go `NewDirect`. -/
def NewDirect : ProxyAdapter × Option GoError :=
  (.Direct { Base := { tp := .Shadowsocks } } .nil, none)

/-- Go `Socks5Option`. -/
structure Socks5Option where
  Name : GoString
  Server : GoString
  Port : Int
  UserName : GoString := []
  Password : GoString := []
  TLS : Bool := false
  UDP : Bool := false
  SkipCertVerify : Bool := false
deriving DecidableEq, Repr

/-- Go `NewSocks5`. -/
def NewSocks5 (option : Socks5Option) : ProxyAdapter :=
  let tlsConfig : Option TLSConfig :=
    if option.TLS then
      some { InsecureSkipVerify := option.SkipCertVerify, ServerName := option.Server }
    else none
  let addr := JoinHostPort option.Server (Itoa option.Port)
  .Socks5
    { Base := { name := option.Name, addr := addr, tp := .Socks5, udp := option.UDP,
                addrMetadata := metadataPtr (NewMetadata addr) },
      user := option.UserName, pass := option.Password, tls := option.TLS,
      skipCertVerify := option.SkipCertVerify, tlsConfig := tlsConfig }
    .nil

/-- Go `ShadowSocksOption`. -/
structure ShadowSocksOption where
  Name : GoString
  Server : GoString
  Port : Int
  Password : GoString
  Cipher : GoString
  UDP : Bool := false
  Plugin : GoString := []
  PluginOpts : PluginOpts := []
deriving DecidableEq, Repr

/-- The end of `NewShadowSocks`: building the adapter and parsing its address. -/
def NewShadowSocks.build (option : ShadowSocksOption) (addr : GoString) (ciph : Cipher)
    (obfsMode : GoString) (obfsOption : Option simpleObfsOption)
    (v2rayOption : Option V2rayOption) : ProxyAdapter × Option GoError :=
  (.ShadowSocks
    { Base := { name := option.Name, addr := addr, tp := .Shadowsocks, udp := option.UDP,
                addrMetadata := metadataPtr (NewMetadata addr) },
      cipher := ciph, obfsMode := obfsMode, v2rayOption := v2rayOption,
      obfsOption := obfsOption }
    .nil,
   metadataErr (NewMetadata addr))

/-- Go `NewShadowSocks`. -/
def NewShadowSocks (lib : Lib) (option : ShadowSocksOption) : ProxyAdapter × Option GoError :=
  let addr := JoinHostPort option.Server (Itoa option.Port)
  let r := lib.PickCipher option.Cipher option.Password
  match r.2 with
  | some err => (.nil, some (.wrap ("ss ".toList ++ addr ++ " initialize error: ".toList) err))
  | none =>
    if option.Plugin = "obfs".toList then
      let d := lib.DecodeSimpleObfs option.PluginOpts { Host := "bing.com".toList }
      match d.2 with
      | some err =>
        (.nil, some (.wrap ("ss ".toList ++ addr ++ " initialize obfs error: ".toList) err))
      | none =>
        let opts := d.1
        if opts.Mode ≠ "tls".toList ∧ opts.Mode ≠ "http".toList then
          (.nil, some (.new ("ss ".toList ++ addr ++ " obfs mode error: ".toList ++ opts.Mode)))
        else NewShadowSocks.build option addr r.1 opts.Mode (some opts) none
    else if option.Plugin = "v2ray-plugin".toList then
      let d := lib.DecodeV2rayObfs option.PluginOpts { Host := "bing.com".toList, Mux := true }
      match d.2 with
      | some err =>
        (.nil, some (.wrap ("ss ".toList ++ addr ++ " initialize v2ray-plugin error: ".toList) err))
      | none =>
        let opts := d.1
        if opts.Mode ≠ "websocket".toList then
          (.nil, some (.new ("ss ".toList ++ addr ++ " obfs mode error: ".toList ++ opts.Mode)))
        else
          let v2rayOption : V2rayOption :=
            { Host := opts.Host, Path := opts.Path, Headers := opts.Headers, Mux := opts.Mux }
          let v2rayOption : V2rayOption :=
            if opts.TLS then
              { v2rayOption with TLS := true, SkipCertVerify := opts.SkipCertVerify }
            else v2rayOption
          NewShadowSocks.build option addr r.1 opts.Mode none (some v2rayOption)
    else NewShadowSocks.build option addr r.1 [] none none

/-- Go `ShadowSocksROption`. -/
structure ShadowSocksROption where
  Name : GoString
  Server : GoString
  Port : Int
  Password : GoString
  Cipher : GoString
  Obfs : GoString
  ObfsParam : GoString := []
  Protocol : GoString
  ProtocolParam : GoString := []
  UDP : Bool := false
deriving DecidableEq, Repr

/-- Go `(protocol.Protocol).SetOverhead`. -/
def Protocol.SetOverhead (p : Protocol) (overhead : Int) : Protocol :=
  { p with overhead := overhead }

/-- The part of `NewShadowSocksR` after the stream-cipher check. -/
def NewShadowSocksR.withCipher (lib : Lib) (option : ShadowSocksROption) (addr : GoString)
    (ciph : StreamCipher) : ProxyAdapter × Option GoError :=
  let o := lib.PickObfs option.Obfs
    { IVSize := ciph.IVSize, Key := ciph.Key, HeadLen := 30, Host := option.Server,
      Port := option.Port, Param := option.ObfsParam }
  match o.2 with
  | some err =>
    (.nil, some (.wrap ("ssr ".toList ++ addr ++ " initialize obfs error: ".toList) err))
  | none =>
    let p := lib.PickProtocol option.Protocol
      { IV := none, Key := ciph.Key, TCPMss := 1460, Param := option.ProtocolParam }
    match p.2 with
    | some err =>
      (.nil, some (.wrap ("ssr ".toList ++ addr ++ " initialize protocol error: ".toList) err))
    | none =>
      let protocol := p.1.SetOverhead (o.1.overhead + p.1.protocolOverhead)
      (.ShadowSocksR
        { Base := { name := option.Name, addr := addr, tp := .ShadowsocksR, udp := option.UDP,
                    addrMetadata := metadataPtr (NewMetadata addr) },
          cipher := ciph, obfs := o.1, protocol := protocol }
        .nil,
       metadataErr (NewMetadata addr))

/-- Go `NewShadowSocksR`. -/
def NewShadowSocksR (lib : Lib) (option : ShadowSocksROption) :
    ProxyAdapter × Option GoError :=
  let addr := JoinHostPort option.Server (Itoa option.Port)
  let r := lib.PickCipher option.Cipher option.Password
  match r.2 with
  | some err =>
    (.nil, some (.wrap ("ssr ".toList ++ addr ++ " initialize cipher error: ".toList) err))
  | none =>
    match r.1 with
    | .stream ciph => NewShadowSocksR.withCipher lib option addr ciph
    | _ =>
      (.nil, some (.new (option.Cipher ++ " is not a supported stream cipher in ssr".toList)))

/-- Go `TrojanOption`. -/
structure TrojanOption where
  Name : GoString
  Server : GoString
  Port : Int
  Password : GoString
  ALPN : List GoString := []
  SNI : GoString := []
  SkipCertVerify : Bool := false
  UDP : Bool := false
deriving DecidableEq, Repr

/-- Go `NewTrojan`. -/
def NewTrojan (option : TrojanOption) : ProxyAdapter × Option GoError :=
  let addr := JoinHostPort option.Server (Itoa option.Port)
  let tOption : TrojanInstanceOption :=
    { Password := option.Password, ALPN := option.ALPN, ServerName := option.Server,
      SkipCertVerify := option.SkipCertVerify }
  let tOption : TrojanInstanceOption :=
    if option.SNI ≠ [] then { tOption with ServerName := option.SNI } else tOption
  (.Trojan
    { Base := { name := option.Name, addr := addr, tp := .Trojan, udp := option.UDP,
                addrMetadata := metadataPtr (NewMetadata addr) },
      inst := { option := tOption } }
    .nil,
   metadataErr (NewMetadata addr))

/-! ## `Proxy` and the latency probe -/

/-- Go `Proxy`. -/
structure Proxy where
  ProxyAdapter : ProxyAdapter
deriving DecidableEq, Repr

/-- Go `NewProxy`. -/
def NewProxy (adapter : ProxyAdapter) : Proxy := { ProxyAdapter := adapter }

section Probe

variable {W : Type}

/-- Go `(*Proxy).DialContext`. -/
def Proxy.DialContext (env : Env W) (p : Proxy) (metadata : Option Metadata) (w : W) :
    Res W (Option conn) :=
  p.ProxyAdapter.DialContext env metadata w

/-- Go `(*Proxy).Dial`: `DialContext` under the default timeout. -/
def Proxy.Dial (env : Env W) (p : Proxy) (metadata : Option Metadata) (w : W) :
    Res W (Option conn) :=
  p.DialContext env metadata w

/-- The descriptor of the resolver endpoint that the `Dial` function of the
resolver in `URLTest` builds. -/
def resolverMetadata : Metadata :=
  { AddrType := ATypIPv4, NetWork := UDP, DstIP := some (IPv4 8 8 8 8), DstPort := "53".toList }

/-- The `Dial` function of the resolver in `URLTest`. -/
def Proxy.resolverDial (env : Env W) (p : Proxy) (w : W) : Res W (Option UdpConn) :=
  match p.ProxyAdapter.DialUDP env (some resolverMetadata) w with
  | .fault => .fault
  | .ret _ (some err) w1 => .ret none (some err) w1
  | .ret pk none w1 =>
    .ret (some { PacketConn := pk, Addr := some { IP := IPv4 8 8 8 8, Port := 53 } }) none w1

/-- The last step of the function `dialContext` in `URLTest`: `p.Dial(&metadata)`. -/
def Proxy.dialStep (env : Env W) (p : Proxy) (metadata : Metadata) (w : W) :
    Res (Metadata × W) NetConn :=
  match p.Dial env (some metadata) w with
  | .fault => .fault
  | .ret _ (some err) w1 => .ret .nil (some err) (metadata, w1)
  | .ret c none w1 => .ret (conn.toNetConn c) none (metadata, w1)

/-- The function `dialContext` in `URLTest`; its state is the captured
variable `metadata` and the world. -/
def Proxy.urlTestDialContext (env : Env W) (p : Proxy) (resolveAddr : Bool)
    (s : Metadata × W) : Res (Metadata × W) NetConn :=
  if resolveAddr && !s.1.Resolved then
    match env.LookupIP (p.resolverDial env) s.1.Host s.2 with
    | .fault => .fault
    | .ret _ (some err) w1 => .ret .nil (some err) (s.1, w1)
    | .ret ips none w1 =>
      match ips with
      | [] =>
        .ret .nil
          (some (.new ("no address associated with this domain ".toList ++ s.1.Host)))
          (s.1, w1)
      | ip :: _ =>
        p.dialStep env
          { s.1 with
            DstIP := some ip, Host := [],
            AddrType := if ip.length = IPv4len then ATypIPv4 else ATypIPv6 }
          w1
  else p.dialStep env s.1 s.2

/-- Go `(*Proxy).URLTest`: the body and the latency in milliseconds as a `uint16`. -/
def Proxy.URLTest (env : Env W) (p : Proxy) (URL : GoString) (resolveAddr : Bool) (w : W) :
    Res W (GoString × Nat) :=
  let m := env.urlToMetadata URL
  match m.2 with
  | some err => .ret ([], 0) (some err) w
  | none =>
    match env.NewRequest URL with
    | some err => .ret ([], 0) (some err) w
    | none =>
      match env.Do (p.urlTestDialContext env resolveAddr) URL (m.1, w) with
      | .fault => .fault
      | .ret _ (some err) s1 => .ret ([], 0) (some err) s1.2
      | .ret resp none s1 =>
        let t : Nat := (Int.emod (env.sinceMilliseconds w s1.2) 65536).toNat
        let r := env.ReadAll resp s1.2
        match r.1.2 with
        | some err => .ret ([], 0) (some err) (env.bodyClose resp r.2)
        | none => .ret (r.1.1, t) none (env.bodyClose resp r.2)

end Probe

/-! ## A scripted outside world

Used to run the adapters on concrete inputs.  The world is the list of
addresses handed to the operating-system dialer, in order.  The dialer fails
with `dialErr` when one is given, and every handshake-like step (TLS, SOCKS5,
websocket, trojan TLS, the first write) fails with `hsErr` when one is given. -/

def scriptedEnv (dialErr hsErr : Option GoError) : Env (List GoString) where
  dialContext := fun address w =>
    ((if dialErr.isSome then .nil else .raw w.length, dialErr), w ++ [address])
  listenPacket := fun w => ((.raw 0, none), w)
  tcpKeepAlive := fun _ w => w
  resolveUDPAddr := fun _ w => ((some { IP := [127, 0, 0, 1], Port := 0 }, none), w)
  serializesSocksAddr := fun m => m.map fun _ => []
  Handshake := fun _ w => (hsErr, w)
  ClientHandshake := fun _ _ _ _ w => (([], hsErr), w)
  addrString := fun _ => "127.0.0.1:0".toList
  addrUDPAddr := fun _ => none
  NewV2rayObfs := fun c _ w => ((if hsErr.isSome then .nil else c, hsErr), w)
  Write := fun _ _ w => (hsErr, w)
  isShadowstreamConn := fun _ => true
  ObtainWriteIV := fun _ w => (([], none), w)
  trojanStreamConn := fun _ c w => ((if hsErr.isSome then .nil else c, hsErr), w)
  trojanWriteHeader := fun _ _ _ _ w => (none, w)
  Close := fun _ w => w
  goDrain := fun _ _ w => w
  urlToMetadata := fun URL =>
    ({ Host := URL, DstPort := "80".toList, AddrType := ATypDomainName }, none)
  LookupIP := fun dial _ w =>
    match dial w with
    | .fault => .fault
    | .ret _ (some e) w1 => .ret [] (some e) w1
    | .ret _ none w1 => .ret [[1, 2, 3, 4]] none w1
  NewRequest := fun _ => none
  Do := fun dial _ s =>
    match dial s with
    | .fault => .fault
    | .ret _ (some e) s1 => .ret { id := 0 } (some e) s1
    | .ret _ none s1 => .ret { id := 1 } none s1
  sinceMilliseconds := fun _ _ => 42
  ReadAll := fun _ w => (("ok".toList, none), w)
  bodyClose := fun _ w => w

/-- A small cipher registry: one stream cipher, one AEAD cipher, everything
else unknown; obfuscation, protocol and plugin options always resolve. -/
def sampleLib : Lib where
  PickCipher := fun name _ =>
    if name = "aes-256-cfb".toList then (.stream { Key := [1, 2, 3], IVSize := 16 }, none)
    else if name = "aes-256-gcm".toList then (.other 1, none)
    else (.nil, some (.new "cipher not supported".toList))
  PickObfs := fun _ _ => ({ id := 0, overhead := 0 }, none)
  PickProtocol := fun _ _ => ({ id := 0, protocolOverhead := 0, overhead := 0 }, none)
  DecodeSimpleObfs := fun opts d =>
    (match opts.lookup "mode".toList with
      | some (.str m) => { d with Mode := m }
      | _ => d, none)
  DecodeV2rayObfs := fun opts d =>
    (match opts.lookup "mode".toList with
      | some (.str m) => { d with Mode := m }
      | _ => d, none)

/-- The destination used in the examples. -/
def exampleDestination : Metadata :=
  { Host := "example.com".toList, DstPort := "443".toList, AddrType := ATypDomainName,
    NetWork := TCP }

/-- Adapter `B`: a SOCKS5 adapter whose upstream is a Direct adapter. -/
def exampleB : ProxyAdapter :=
  (NewSocks5 { Name := "B".toList, Server := "10.0.0.2".toList, Port := 1080 }).SetDialer
    NewDirect.1

/-- Adapter `A`: a SOCKS5 adapter whose upstream is `B`. -/
def exampleA : ProxyAdapter :=
  (NewSocks5 { Name := "A".toList, Server := "10.0.0.1".toList, Port := 1080 }).SetDialer
    exampleB

/-- A Shadowsocks adapter with the websocket plugin whose upstream is a Direct adapter. -/
def exampleSS : ProxyAdapter :=
  (NewShadowSocks sampleLib
    { Name := "ss".toList, Server := "10.0.0.3".toList, Port := 8388,
      Password := "secret".toList, Cipher := "aes-256-gcm".toList,
      Plugin := "v2ray-plugin".toList,
      PluginOpts := [("mode".toList, .str "websocket".toList)] }).1.SetDialer NewDirect.1

/-- A SOCKS5 adapter as `NewSocks5` returns it: `SetDialer` has not been called. -/
def exampleUnwired : ProxyAdapter :=
  NewSocks5 { Name := "A".toList, Server := "10.0.0.1".toList, Port := 1080 }

/-- The scripted world in which opening the local datagram socket fails with
`udpErr`; everything else is as in `scriptedEnv none none`. -/
def noDatagramEnv (udpErr : GoError) : Env (List GoString) :=
  { scriptedEnv none none with listenPacket := fun w => ((.nil, some udpErr), w) }

/-- Options of a Shadowsocks adapter with the `obfs` plugin in the given mode. -/
def exampleObfsOption (server mode : GoString) : ShadowSocksOption :=
  { Name := "ss".toList, Server := server, Port := 8388, Password := "secret".toList,
    Cipher := "aes-256-gcm".toList, Plugin := "obfs".toList,
    PluginOpts := [("mode".toList, .str mode)] }

/-- Options of a Shadowsocks adapter with the `v2ray-plugin` plugin in the given mode. -/
def exampleV2rayOption (server mode : GoString) : ShadowSocksOption :=
  { Name := "ss".toList, Server := server, Port := 8388, Password := "secret".toList,
    Cipher := "aes-256-gcm".toList, Plugin := "v2ray-plugin".toList,
    PluginOpts := [("mode".toList, .str mode)] }


/-! ## Facts about the scanning helpers -/

theorem indexByteString_of_not_mem (s : GoString) (c : Char) (h : c ∉ s) :
    indexByteString s c = none := by
  induction s with
  | nil => rfl
  | cons x xs ih =>
    simp only [List.mem_cons, not_or] at h
    have hx : ¬ x = c := fun e => h.1 e.symm
    simp [indexByteString, hx, ih h.2]

theorem indexByteString_of_mem (s : GoString) (c : Char) (h : c ∈ s) :
    (indexByteString s c).isSome = true := by
  induction s with
  | nil => simp at h
  | cons x xs ih =>
    by_cases hx : x = c
    · simp [indexByteString, hx]
    · have hm : c ∈ xs := by
        rcases List.mem_cons.1 h with e | e
        · exact absurd e.symm hx
        · exact e
      have := ih hm
      cases hq : indexByteString xs c with
      | none => simp [hq] at this
      | some k => simp [indexByteString, hx, hq]

theorem indexByteString_append (s t : GoString) (c : Char) (h : c ∉ s) :
    indexByteString (s ++ c :: t) c = some s.length := by
  induction s with
  | nil => simp [indexByteString]
  | cons x xs ih =>
    simp only [List.mem_cons, not_or] at h
    have hx : ¬ x = c := fun e => h.1 e.symm
    simp [indexByteString, hx, ih h.2]

theorem last_of_not_mem (s : GoString) (c : Char) (h : c ∉ s) : last s c = none := by
  induction s with
  | nil => rfl
  | cons x xs ih =>
    simp only [List.mem_cons, not_or] at h
    have hx : ¬ x = c := fun e => h.1 e.symm
    simp [last, hx, ih h.2]

theorem last_append (s t : GoString) (c : Char) (h : c ∉ t) :
    last (s ++ c :: t) c = some s.length := by
  induction s with
  | nil => simp [last, last_of_not_mem t c h]
  | cons x xs ih => simp [last, ih]

/-- A string without a colon has no port. -/
theorem SplitHostPort_no_colon (addr : GoString) (h : ':' ∉ addr) :
    SplitHostPort addr = .error (.addrError missingPort addr) := by
  simp [SplitHostPort, last_of_not_mem addr ':' h]

/-- Splitting `host:port`. -/
theorem SplitHostPort_plain (host port : GoString)
    (hc : ':' ∉ host) (ho : '[' ∉ host) (hcl : ']' ∉ host)
    (pc : ':' ∉ port) (po : '[' ∉ port) (pcl : ']' ∉ port) :
    SplitHostPort (host ++ ':' :: port) = .ok (host, port) := by
  have hhead : ¬ (host ++ ':' :: port).head? = some '[' := by
    cases host with
    | nil => simp
    | cons x xs =>
      simp only [List.mem_cons, not_or] at ho
      simpa using fun e => ho.1 e.symm
  have hhead2 : ¬ host.head? = some '[' := by
    cases host with
    | nil => simp
    | cons x xs =>
      simp only [List.mem_cons, not_or] at ho
      simpa using fun e => ho.1 e.symm
  have h1 : '[' ∉ host ++ ':' :: port := by simp [ho, po]
  have h2 : ']' ∉ host ++ ':' :: port := by simp [hcl, pcl]
  simp [SplitHostPort, last_append host port ':' pc, hhead, hhead2, splitHostPortTail,
    indexByteString_of_not_mem _ _ hc, indexByteString_of_not_mem _ _ h1,
    indexByteString_of_not_mem _ _ h2]

/-- Splitting `[host]:port`. -/
theorem SplitHostPort_bracket (host port : GoString)
    (ho : '[' ∉ host) (hcl : ']' ∉ host)
    (pc : ':' ∉ port) (po : '[' ∉ port) (pcl : ']' ∉ port) :
    SplitHostPort ('[' :: (host ++ ']' :: ':' :: port)) = .ok (host, port) := by
  have hl : last ('[' :: (host ++ ']' :: ':' :: port)) ':' = some (host.length + 2) := by
    have := last_append ('[' :: (host ++ [']'])) port ':' pc
    simpa using this
  have hi : indexByteString ('[' :: (host ++ ']' :: ':' :: port)) ']' = some (host.length + 1) := by
    have := indexByteString_append ('[' :: host) (':' :: port) ']' (by simp [hcl])
    simpa using this
  have h1 : '[' ∉ host ++ ']' :: ':' :: port := by simp [ho, po]
  have h2 : ']' ∉ ':' :: port := by simp [pcl]
  have hd : List.drop (host.length + 1) (host ++ ']' :: ':' :: port) = ':' :: port := by
    simp
  have hd2 : List.drop (host.length + 2) (host ++ ']' :: ':' :: port) = port := by
    simp
  simp [SplitHostPort, hl, hi, splitHostPortTail, indexByteString_of_not_mem _ _ h1,
    indexByteString_of_not_mem _ _ h2, hd, hd2]

/-! ## Address descriptors: parsing and printing -/

theorem ParseIP_nil : ParseIP [] = none := rfl

theorem NewMetadata_domain (addr host port : GoString)
    (h : SplitHostPort addr = .ok (host, port)) (hp : ParseIP host = none) :
    NewMetadata addr = .ok { Host := host, DstPort := port } := by
  simp [NewMetadata, h, hp]

theorem NewMetadata_ipv4 (addr host port : GoString) (ip v4 : IP)
    (h : SplitHostPort addr = .ok (host, port)) (hp : ParseIP host = some ip)
    (h4 : IP.To4 ip = some v4) :
    NewMetadata addr = .ok { DstIP := some v4, AddrType := ATypIPv4, DstPort := port } := by
  simp [NewMetadata, h, hp, h4]

theorem NewMetadata_ipv6 (addr host port : GoString) (ip : IP)
    (h : SplitHostPort addr = .ok (host, port)) (hp : ParseIP host = some ip)
    (h4 : IP.To4 ip = none) :
    NewMetadata addr = .ok { DstIP := some ip, AddrType := ATypIPv6, DstPort := port } := by
  simp [NewMetadata, h, hp, h4]

/-- Every string that splits is accepted, and the descriptor carries the port. -/
theorem NewMetadata_ok_of_split (addr host port : GoString)
    (h : SplitHostPort addr = .ok (host, port)) :
    ∃ md, NewMetadata addr = .ok md ∧ md.DstPort = port := by
  cases hp : ParseIP host with
  | none => exact ⟨_, NewMetadata_domain addr host port h hp, rfl⟩
  | some ip =>
    cases h4 : IP.To4 ip with
    | none => exact ⟨_, NewMetadata_ipv6 addr host port ip h hp h4, rfl⟩
    | some v4 => exact ⟨_, NewMetadata_ipv4 addr host port ip v4 h hp h4, rfl⟩

theorem NewMetadata_error_iff (addr : GoString) :
    (∃ e, NewMetadata addr = .error e) ↔ ∃ e, SplitHostPort addr = .error e := by
  cases h : SplitHostPort addr with
  | error e => simp [NewMetadata, h]
  | ok hp =>
    obtain ⟨host, port⟩ := hp
    obtain ⟨md, hmd, _⟩ := NewMetadata_ok_of_split addr host port h
    simp [hmd]

/-- A string that splits into a non-empty host which, when it is an IP literal,
is written the way `IP.String` prints it, is accepted and printed as
`JoinHostPort host port`. -/
theorem RemoteAddress_of_canonical (addr host port : GoString)
    (h : SplitHostPort addr = .ok (host, port)) (hne : host ≠ [])
    (hcanon : ∀ ip, ParseIP host = some ip → IP.String ((IP.To4 ip).getD ip) = host) :
    ∃ md, NewMetadata addr = .ok md ∧ md.RemoteAddress = JoinHostPort host port := by
  cases hp : ParseIP host with
  | none =>
    refine ⟨_, NewMetadata_domain addr host port h hp, ?_⟩
    simp [Metadata.RemoteAddress, Metadata.String, hne]
  | some ip =>
    have hc := hcanon ip hp
    cases h4 : IP.To4 ip with
    | none =>
      refine ⟨_, NewMetadata_ipv6 addr host port ip h hp h4, ?_⟩
      rw [h4] at hc
      simp only [Option.getD_none] at hc
      simp [Metadata.RemoteAddress, Metadata.String, hc]
    | some v4 =>
      refine ⟨_, NewMetadata_ipv4 addr host port ip v4 h hp h4, ?_⟩
      rw [h4] at hc
      simp only [Option.getD_some] at hc
      simp [Metadata.RemoteAddress, Metadata.String, hc]

/-- C4 (amended): a descriptor returned by `NewMetadata` never has both `Host`
and `DstIP` set; exactly one of them is set, and `Valid()` holds, precisely
when the host part of the address string is not empty; for an empty host part
neither is set and `Valid()` is false. -/
theorem NewMetadata_identity (addr : GoString) (md : Metadata)
    (h : NewMetadata addr = .ok md) :
    ¬ (md.Host ≠ [] ∧ md.DstIP ≠ none) ∧
    ∃ host port, SplitHostPort addr = .ok (host, port) ∧
      (host ≠ [] →
        ((md.Host ≠ [] ∧ md.DstIP = none) ∨ (md.Host = [] ∧ md.DstIP ≠ none)) ∧
        md.Valid = true) ∧
      (host = [] → md.Host = [] ∧ md.DstIP = none ∧ md.Valid = false) := by
  cases hs : SplitHostPort addr with
  | error e => simp [NewMetadata, hs] at h
  | ok hp =>
    obtain ⟨host, port⟩ := hp
    cases hpi : ParseIP host with
    | none =>
      rw [NewMetadata_domain addr host port hs hpi] at h
      simp only [Except.ok.injEq] at h
      subst h
      refine ⟨by simp, host, port, rfl, ?_, ?_⟩
      · intro hne
        simp [Metadata.Valid, hne]
      · intro he
        simp [Metadata.Valid, he]
    | some ip =>
      have hne : host ≠ [] := by
        intro he
        rw [he, ParseIP_nil] at hpi
        cases hpi
      cases h4 : IP.To4 ip with
      | none =>
        rw [NewMetadata_ipv6 addr host port ip hs hpi h4] at h
        simp only [Except.ok.injEq] at h
        subst h
        exact ⟨by simp, host, port, rfl, fun _ => by simp [Metadata.Valid],
          fun he => absurd he hne⟩
      | some v4 =>
        rw [NewMetadata_ipv4 addr host port ip v4 hs hpi h4] at h
        simp only [Except.ok.injEq] at h
        subst h
        exact ⟨by simp, host, port, rfl, fun _ => by simp [Metadata.Valid],
          fun he => absurd he hne⟩

/-- Witness for C4: `example.com:80`. -/
theorem NewMetadata_identity_witness :
    ¬ ((Metadata.mk 0 none "80".toList 0 "example.com".toList).Host ≠ [] ∧
        (Metadata.mk 0 none "80".toList 0 "example.com".toList).DstIP ≠ none) ∧
    ∃ host port, SplitHostPort "example.com:80".toList = .ok (host, port) ∧
      (host ≠ [] →
        (((Metadata.mk 0 none "80".toList 0 "example.com".toList).Host ≠ [] ∧
            (Metadata.mk 0 none "80".toList 0 "example.com".toList).DstIP = none) ∨
          ((Metadata.mk 0 none "80".toList 0 "example.com".toList).Host = [] ∧
            (Metadata.mk 0 none "80".toList 0 "example.com".toList).DstIP ≠ none)) ∧
        (Metadata.mk 0 none "80".toList 0 "example.com".toList).Valid = true) ∧
      (host = [] → (Metadata.mk 0 none "80".toList 0 "example.com".toList).Host = [] ∧
        (Metadata.mk 0 none "80".toList 0 "example.com".toList).DstIP = none ∧
        (Metadata.mk 0 none "80".toList 0 "example.com".toList).Valid = false) :=
  NewMetadata_identity "example.com:80".toList
    (Metadata.mk 0 none "80".toList 0 "example.com".toList) rfl

/-- Counterexample to C4: `:80` is accepted, and the descriptor has neither a
host nor an IP, so `Valid()` is false. -/
theorem NewMetadata_accepts_empty_host :
    ∃ md, NewMetadata ":80".toList = .ok md ∧ md.Host = [] ∧ md.DstIP = none ∧
      md.Valid = false :=
  ⟨{ DstPort := "80".toList }, rfl, rfl, rfl, rfl⟩

/-- C5 (amended): `NewMetadata` fails exactly when `net.SplitHostPort` fails.
A string without a colon (no port) is rejected with "missing port in address";
the host part is not examined, so `host:port` (host without colon or brackets,
possibly empty) and `[host]:port` (host without brackets) are accepted for
every port without colon or brackets. -/
theorem NewMetadata_accepts_and_rejects (addr host port : GoString)
    (ho : '[' ∉ host) (hcl : ']' ∉ host)
    (pc : ':' ∉ port) (po : '[' ∉ port) (pcl : ']' ∉ port) :
    ((∃ e, NewMetadata addr = .error e) ↔ ∃ e, SplitHostPort addr = .error e) ∧
    (':' ∉ addr → NewMetadata addr = .error (.addrError missingPort addr)) ∧
    (':' ∉ host → ∃ md, NewMetadata (host ++ [':'] ++ port) = .ok md ∧ md.DstPort = port) ∧
    (∃ md, NewMetadata (['['] ++ host ++ [']', ':'] ++ port) = .ok md ∧ md.DstPort = port) := by
  refine ⟨NewMetadata_error_iff addr, ?_, ?_, ?_⟩
  · intro hc
    simp [NewMetadata, SplitHostPort_no_colon addr hc]
  · intro hc
    have hs := SplitHostPort_plain host port hc ho hcl pc po pcl
    have hs2 : SplitHostPort (host ++ [':'] ++ port) = .ok (host, port) := by simpa using hs
    exact NewMetadata_ok_of_split _ host port hs2
  · have hs := SplitHostPort_bracket host port ho hcl pc po pcl
    have hs2 : SplitHostPort (['['] ++ host ++ [']', ':'] ++ port) = .ok (host, port) := by
      simpa using hs
    exact NewMetadata_ok_of_split _ host port hs2

/-- Witness for C5: `example.com` has no port; `1.2.3.4:80` and
`[1.2.3.4]:80` are accepted. -/
theorem NewMetadata_accepts_and_rejects_witness :
    ((∃ e, NewMetadata "example.com".toList = .error e) ↔
      ∃ e, SplitHostPort "example.com".toList = .error e) ∧
    (':' ∉ "example.com".toList →
      NewMetadata "example.com".toList
        = .error (.addrError missingPort "example.com".toList)) ∧
    (':' ∉ "1.2.3.4".toList →
      ∃ md, NewMetadata ("1.2.3.4".toList ++ [':'] ++ "80".toList) = .ok md ∧
        md.DstPort = "80".toList) ∧
    (∃ md, NewMetadata (['['] ++ "1.2.3.4".toList ++ [']', ':'] ++ "80".toList) = .ok md ∧
        md.DstPort = "80".toList) :=
  NewMetadata_accepts_and_rejects "example.com".toList "1.2.3.4".toList "80".toList
    (by decide) (by decide) (by decide) (by decide) (by decide)

/-- Counterexample to C5: the host part of `:443` is empty, which is neither an
IP literal nor a non-empty domain name, and the string is accepted. -/
theorem NewMetadata_unparsable_host_accepted :
    SplitHostPort ":443".toList = .ok ([], "443".toList) ∧ ParseIP [] = none ∧
    ∃ md, NewMetadata ":443".toList = .ok md :=
  ⟨rfl, rfl, { DstPort := "443".toList }, rfl⟩

/-- The domain branch of `NewMetadata` does not touch `AddrType`: for
`example.com:80` the descriptor keeps the zero value 0, which is none of
`ATypIPv4`, `ATypDomainName`, `ATypIPv6`. -/
theorem NewMetadata_domain_AddrType :
    ∃ md, NewMetadata "example.com:80".toList = .ok md ∧
      md.Host = "example.com".toList ∧ md.DstIP = none ∧ md.AddrType = 0 ∧
      md.AddrType ≠ ATypIPv4 ∧ md.AddrType ≠ ATypDomainName ∧ md.AddrType ≠ ATypIPv6 :=
  ⟨{ Host := "example.com".toList, DstPort := "80".toList }, rfl, rfl, rfl, rfl,
    by decide, by decide, by decide⟩

/-- The domain branch in general: whenever the host part is no IP literal, the
descriptor has `AddrType = 0`. -/
theorem NewMetadata_name_AddrType (addr host port : GoString) (md : Metadata)
    (hs : SplitHostPort addr = .ok (host, port)) (hp : ParseIP host = none)
    (h : NewMetadata addr = .ok md) :
    md.Host = host ∧ md.DstIP = none ∧ md.AddrType = 0 := by
  rw [NewMetadata_domain addr host port hs hp] at h
  cases h
  exact ⟨rfl, rfl, rfl⟩

/-! ## Hosts that are printed as they were written

The round trip of `NewMetadata` and `RemoteAddress` asks of an IP literal that
`IP.String` prints it as written.  Two families for which this is so: names
that are no IP literal at all, and dotted-quad IPv4 addresses. -/

theorem ParseIPScan_no_colon (s t : GoString) (h : ':' ∉ t) :
    ParseIPScan s t = none ∨ ParseIPScan s t = parseIPv4 s := by
  induction t with
  | nil => exact Or.inl rfl
  | cons c cs ih =>
    simp only [List.mem_cons, not_or] at h
    have hc : ¬ c = ':' := fun e => h.1 e.symm
    by_cases hd : c = '.'
    · exact Or.inr (by simp [ParseIPScan, hd])
    · simpa [ParseIPScan, hd, hc] using ih h.2

theorem dtoiLoop_cons_digit (c : Char) (cs : GoString) (n i : Nat)
    (h : '0'.toNat ≤ c.toNat ∧ c.toNat ≤ '9'.toNat) :
    dtoiLoop (c :: cs) n i =
      if n * 10 + (c.toNat - '0'.toNat) ≥ big then (big, i, false)
      else dtoiLoop cs (n * 10 + (c.toNat - '0'.toNat)) (i + 1) := by
  rw [dtoiLoop, if_pos h]

theorem dtoiLoop_cons_other (c : Char) (cs : GoString) (n i : Nat)
    (h : ¬ ('0'.toNat ≤ c.toNat ∧ c.toNat ≤ '9'.toNat)) :
    dtoiLoop (c :: cs) n i = (n, i, true) := by
  rw [dtoiLoop, if_neg h]

theorem parseIPv4_none_of_head (c : Char) (cs : GoString)
    (h : ¬ ('0'.toNat ≤ c.toNat ∧ c.toNat ≤ '9'.toNat)) :
    parseIPv4 (c :: cs) = none := by
  have hd : dtoi (c :: cs) = (0, 0, false) := by
    simp only [dtoi, dtoiLoop_cons_other c cs 0 0 h]
    rfl
  simp [parseIPv4, parseIPv4Loop, IPv4len, hd]

/-- A name without a colon whose first character is not a decimal digit is no
IP literal. -/
theorem ParseIP_none_of_name (c : Char) (cs : GoString)
    (hdigit : ¬ ('0'.toNat ≤ c.toNat ∧ c.toNat ≤ '9'.toNat)) (hcolon : ':' ∉ c :: cs) :
    ParseIP (c :: cs) = none := by
  rcases ParseIPScan_no_colon (c :: cs) (c :: cs) hcolon with h | h
  · exact h
  · rw [ParseIP, h]
    exact parseIPv4_none_of_head c cs hdigit

/-- What `dtoiLoop` does on digits followed by the end of the string or by a
character that is not a digit. -/
theorem dtoiLoop_append (ds rest : GoString) (n i : Nat)
    (hrest : rest = [] ∨ ∃ c t, rest = c :: t ∧ ¬ ('0'.toNat ≤ c.toNat ∧ c.toNat ≤ '9'.toNat))
    (hok : (dtoiLoop ds n i).2.2 = true) (hlen : (dtoiLoop ds n i).2.1 = i + ds.length) :
    dtoiLoop (ds ++ rest) n i = dtoiLoop ds n i := by
  induction ds generalizing n i with
  | nil =>
    rcases hrest with h | ⟨c, t, h, hc⟩
    · subst h
      rfl
    · subst h
      rw [List.nil_append, dtoiLoop_cons_other c t n i hc]
      rfl
  | cons c cs ih =>
    by_cases hc : '0'.toNat ≤ c.toNat ∧ c.toNat ≤ '9'.toNat
    · rw [dtoiLoop_cons_digit c cs n i hc] at hok hlen
      rw [List.cons_append, dtoiLoop_cons_digit c (cs ++ rest) n i hc,
        dtoiLoop_cons_digit c cs n i hc]
      by_cases hb : n * 10 + (c.toNat - '0'.toNat) ≥ big
      · rw [if_pos hb] at hok
        cases hok
      · rw [if_neg hb] at hok hlen
        rw [if_neg hb, if_neg hb]
        apply ih _ _ hok
        rw [hlen, List.length_cons]
        omega
    · rw [dtoiLoop_cons_other c cs n i hc, List.length_cons] at hlen
      simp only at hlen
      omega

set_option maxRecDepth 100000 in
/-- The decimal text of a byte: not empty, read back by `dtoiLoop` as the
byte, without a leading zero when longer than one character, and free of the
separators. -/
theorem ubtoa_spec : ∀ v, v < 256 →
    ubtoa v ≠ [] ∧
    dtoiLoop (ubtoa v) 0 0 = (v, (ubtoa v).length, true) ∧
    (¬ ((ubtoa v).length > 1 ∧ (ubtoa v).head? = some '0')) ∧
    '.' ∉ ubtoa v ∧ ':' ∉ ubtoa v := by
  decide

set_option maxRecDepth 100000 in
/-- The decimal text of a byte has no bracket. -/
theorem ubtoa_no_bracket : ∀ v, v < 256 → '[' ∉ ubtoa v ∧ ']' ∉ ubtoa v := by
  decide

theorem ParseIPScan_dot (s pre post : GoString) (hdot : '.' ∉ pre) (hcolon : ':' ∉ pre) :
    ParseIPScan s (pre ++ '.' :: post) = parseIPv4 s := by
  induction pre with
  | nil => simp [ParseIPScan]
  | cons c cs ih =>
    simp only [List.mem_cons, not_or] at hdot hcolon
    have h1 : ¬ c = '.' := fun e => hdot.1 e.symm
    have h2 : ¬ c = ':' := fun e => hcolon.1 e.symm
    simpa [ParseIPScan, h1, h2] using ih hdot.2 hcolon.2

/-- Go `dtoi` reads the decimal text of a byte back, up to the end of the string
or the next dot. -/
theorem dtoi_ubtoa (v : Nat) (rest : GoString) (hv : v < 256)
    (hrest : rest = [] ∨ ∃ t, rest = '.' :: t) :
    dtoi (ubtoa v ++ rest) = (v, (ubtoa v).length, true) := by
  obtain ⟨hne, hloop, _, _, _⟩ := ubtoa_spec v hv
  have hrest2 : rest = [] ∨
      ∃ c t, rest = c :: t ∧ ¬ ('0'.toNat ≤ c.toNat ∧ c.toNat ≤ '9'.toNat) := by
    rcases hrest with h | ⟨t, h⟩
    · exact Or.inl h
    · exact Or.inr ⟨'.', t, h, by decide⟩
  have happ := dtoiLoop_append (ubtoa v) rest 0 0 hrest2 (by rw [hloop]) (by rw [hloop]; simp)
  have hlen : (ubtoa v).length ≠ 0 := by
    intro h0
    exact hne (List.length_eq_zero.1 h0)
  simp only [dtoi, happ, hloop]
  simp [hlen]

/-- One round of the loop of `parseIPv4` on the decimal text of a byte. -/
theorem parseIPv4Loop_octet (k v : Nat) (first : Bool) (rest : GoString) (hv : v < 256)
    (hrest : rest = [] ∨ ∃ t, rest = '.' :: t) :
    parseIPv4Loop (k + 1) first ((if first then [] else ['.']) ++ (ubtoa v ++ rest))
      = match parseIPv4Loop k false rest with
        | none => none
        | some (p, r) => some (v :: p, r) := by
  obtain ⟨hne, _, hzero, _, _⟩ := ubtoa_spec v hv
  have hd := dtoi_ubtoa v rest hv hrest
  have hhead : (ubtoa v ++ rest).head? = (ubtoa v).head? := by
    cases hu : ubtoa v with
    | nil => exact absurd hu hne
    | cons x xs => rfl
  have hnil : ¬ (ubtoa v ++ rest = []) := by simp [hne]
  have hz : ¬ ((ubtoa v).length > 1 ∧ (ubtoa v ++ rest).head? = some '0') := by
    rw [hhead]
    exact hzero
  have hff : ¬ v > 0xFF := by omega
  cases first with
  | true =>
    simp only [if_true, List.nil_append]
    rw [parseIPv4Loop]
    simp only [hnil, if_false, if_true, hd, Bool.true_eq_false, false_or, hff, hz,
      List.drop_left]
  | false =>
    simp only [Bool.false_eq_true, if_false, List.singleton_append]
    rw [parseIPv4Loop]
    simp only [List.cons_ne_nil, if_false, Bool.false_eq_true, List.head?_cons, ne_eq,
      not_true_eq_false, List.drop_succ_cons, List.drop_zero, hd, Bool.true_eq_false,
      false_or, hff, hz, List.drop_left]

/-- A dotted quad is parsed as the IPv4 address it spells. -/
theorem ParseIP_dottedQuad (a b c d : Nat) (ha : a < 256) (hb : b < 256) (hc : c < 256)
    (hd : d < 256) :
    ParseIP (ubtoa a ++ ['.'] ++ ubtoa b ++ ['.'] ++ ubtoa c ++ ['.'] ++ ubtoa d)
      = some (IPv4 a b c d) := by
  obtain ⟨_, _, _, hdot, hcolon⟩ := ubtoa_spec a ha
  have hshape : ubtoa a ++ ['.'] ++ ubtoa b ++ ['.'] ++ ubtoa c ++ ['.'] ++ ubtoa d
      = ubtoa a ++ '.' :: (ubtoa b ++ '.' :: (ubtoa c ++ '.' :: (ubtoa d ++ []))) := by
    simp
  rw [ParseIP, hshape, ParseIPScan_dot _ (ubtoa a) _ hdot hcolon, parseIPv4]
  have h4 := parseIPv4Loop_octet 0 d false [] hd (Or.inl rfl)
  have h3 := parseIPv4Loop_octet 1 c false ('.' :: (ubtoa d ++ [])) hc (Or.inr ⟨_, rfl⟩)
  have h2 := parseIPv4Loop_octet 2 b false ('.' :: (ubtoa c ++ '.' :: (ubtoa d ++ []))) hb
    (Or.inr ⟨_, rfl⟩)
  have h1 := parseIPv4Loop_octet 3 a true
    ('.' :: (ubtoa b ++ '.' :: (ubtoa c ++ '.' :: (ubtoa d ++ [])))) ha (Or.inr ⟨_, rfl⟩)
  simp only [Bool.false_eq_true, if_false, if_true, List.singleton_append, List.nil_append,
    Nat.zero_add, Nat.reduceAdd] at h1 h2 h3 h4
  rw [parseIPv4Loop] at h4
  simp only at h4
  rw [h4] at h3
  simp only at h3
  rw [h3] at h2
  simp only at h2
  rw [h2] at h1
  simp only at h1
  rw [IPv4len, h1]

/-- A dotted quad is printed as it was written: the condition of the round
trip holds for every IPv4 address in dotted-decimal form. -/
theorem dottedQuad_canonical (a b c d : Nat) (ha : a < 256) (hb : b < 256) (hc : c < 256)
    (hd : d < 256) :
    ∀ ip, ParseIP (ubtoa a ++ ['.'] ++ ubtoa b ++ ['.'] ++ ubtoa c ++ ['.'] ++ ubtoa d) = some ip →
      IP.String ((IP.To4 ip).getD ip)
        = ubtoa a ++ ['.'] ++ ubtoa b ++ ['.'] ++ ubtoa c ++ ['.'] ++ ubtoa d := by
  intro ip h
  rw [ParseIP_dottedQuad a b c d ha hb hc hd] at h
  cases h
  rfl

/-- A name that is no IP literal meets the condition of the round trip. -/
theorem name_canonical (c : Char) (cs : GoString)
    (hdigit : ¬ ('0'.toNat ≤ c.toNat ∧ c.toNat ≤ '9'.toNat)) (hcolon : ':' ∉ c :: cs) :
    ∀ ip, ParseIP (c :: cs) = some ip → IP.String ((IP.To4 ip).getD ip) = c :: cs := by
  intro ip h
  rw [ParseIP_none_of_name c cs hdigit hcolon] at h
  cases h

/-! ## The address family of a parsed descriptor -/

theorem To4_IPv4 (a b c d : Nat) : IP.To4 (IPv4 a b c d) = some [a, b, c, d] := by
  simp [IP.To4, IPv4, v4InV6Prefix, IPv4len, IPv6len]

/-- C6 (amended): the address family follows the bytes of the parsed IP.  For
every accepted address string whose host part is an IP literal, `AddrType` is
`ATypIPv4` (1) exactly when the parsed address has a 4-byte form (`To4`), and
then `DstIP` is that form; otherwise it is `ATypIPv6` (4) and `DstIP` is the
16-byte address.  In particular every dotted-quad host gets `ATypIPv4`. -/
theorem NewMetadata_AddrType (addr host port : GoString) (ip : IP) (md : Metadata)
    (a b c d : Nat) (q : GoString)
    (hs : SplitHostPort addr = .ok (host, port)) (hp : ParseIP host = some ip)
    (h : NewMetadata addr = .ok md)
    (ha : a < 256) (hb : b < 256) (hc : c < 256) (hd : d < 256)
    (qc : ':' ∉ q) (qo : '[' ∉ q) (qcl : ']' ∉ q) :
    (md.AddrType = ATypIPv4 ∨ md.AddrType = ATypIPv6) ∧
    (∀ v4, IP.To4 ip = some v4 → md.AddrType = ATypIPv4 ∧ md.DstIP = some v4) ∧
    (IP.To4 ip = none → md.AddrType = ATypIPv6 ∧ md.DstIP = some ip) ∧
    NewMetadata (ubtoa a ++ ['.'] ++ ubtoa b ++ ['.'] ++ ubtoa c ++ ['.'] ++ ubtoa d
        ++ [':'] ++ q)
      = .ok { DstIP := some [a, b, c, d], AddrType := ATypIPv4, DstPort := q } := by
  refine ⟨?_, ?_, ?_, ?_⟩
  · cases h4 : IP.To4 ip with
    | none =>
      rw [NewMetadata_ipv6 addr host port ip hs hp h4] at h
      cases h
      exact Or.inr rfl
    | some v4 =>
      rw [NewMetadata_ipv4 addr host port ip v4 hs hp h4] at h
      cases h
      exact Or.inl rfl
  · intro v4 h4
    rw [NewMetadata_ipv4 addr host port ip v4 hs hp h4] at h
    cases h
    exact ⟨rfl, rfl⟩
  · intro h4
    rw [NewMetadata_ipv6 addr host port ip hs hp h4] at h
    cases h
    exact ⟨rfl, rfl⟩
  · obtain ⟨_, _, _, _, ac⟩ := ubtoa_spec a ha
    obtain ⟨_, _, _, _, bc⟩ := ubtoa_spec b hb
    obtain ⟨_, _, _, _, cc⟩ := ubtoa_spec c hc
    obtain ⟨_, _, _, _, dc⟩ := ubtoa_spec d hd
    have hbr := ubtoa_no_bracket
    have hcol : ':' ∉ ubtoa a ++ ['.'] ++ ubtoa b ++ ['.'] ++ ubtoa c ++ ['.'] ++ ubtoa d := by
      simp [ac, bc, cc, dc]
    have hop : '[' ∉ ubtoa a ++ ['.'] ++ ubtoa b ++ ['.'] ++ ubtoa c ++ ['.'] ++ ubtoa d := by
      simp [(hbr a ha).1, (hbr b hb).1, (hbr c hc).1, (hbr d hd).1]
    have hcl : ']' ∉ ubtoa a ++ ['.'] ++ ubtoa b ++ ['.'] ++ ubtoa c ++ ['.'] ++ ubtoa d := by
      simp [(hbr a ha).2, (hbr b hb).2, (hbr c hc).2, (hbr d hd).2]
    have hsplit := SplitHostPort_plain _ q hcol hop hcl qc qo qcl
    have hsplit2 : SplitHostPort
        (ubtoa a ++ ['.'] ++ ubtoa b ++ ['.'] ++ ubtoa c ++ ['.'] ++ ubtoa d ++ [':'] ++ q)
        = .ok (ubtoa a ++ ['.'] ++ ubtoa b ++ ['.'] ++ ubtoa c ++ ['.'] ++ ubtoa d, q) := by
      simpa using hsplit
    exact NewMetadata_ipv4 _ _ q (IPv4 a b c d) [a, b, c, d] hsplit2
      (ParseIP_dottedQuad a b c d ha hb hc hd) (To4_IPv4 a b c d)

/-- Witness for C6: `[2001:db8::1]:443` is tagged IPv6, `192.168.0.1:80` IPv4. -/
theorem NewMetadata_AddrType_witness :
    ((Metadata.mk 0 (some [32, 1, 13, 184, 0, 0, 0, 0, 0, 0, 0, 0, 0, 0, 0, 1]) "443".toList
          ATypIPv6 []).AddrType = ATypIPv6 ∧
      (Metadata.mk 0 (some [32, 1, 13, 184, 0, 0, 0, 0, 0, 0, 0, 0, 0, 0, 0, 1]) "443".toList
          ATypIPv6 []).DstIP = some [32, 1, 13, 184, 0, 0, 0, 0, 0, 0, 0, 0, 0, 0, 0, 1]) ∧
    NewMetadata "192.168.0.1:80".toList
      = .ok { DstIP := some [192, 168, 0, 1], AddrType := ATypIPv4, DstPort := "80".toList } :=
  have h := NewMetadata_AddrType "[2001:db8::1]:443".toList "2001:db8::1".toList "443".toList
    [32, 1, 13, 184, 0, 0, 0, 0, 0, 0, 0, 0, 0, 0, 0, 1]
    (Metadata.mk 0 (some [32, 1, 13, 184, 0, 0, 0, 0, 0, 0, 0, 0, 0, 0, 0, 1]) "443".toList
      ATypIPv6 [])
    192 168 0 1 "80".toList rfl rfl rfl (by decide) (by decide) (by decide) (by decide)
    (by decide) (by decide) (by decide)
  ⟨h.2.2.1 rfl, h.2.2.2⟩

/-- Counterexample to C6: the host of `[::ffff:1.2.3.4]:80` is an IPv6 literal,
and the descriptor is tagged `ATypIPv4` with the 4-byte address. -/
theorem NewMetadata_mapped_literal_AddrType :
    SplitHostPort "[::ffff:1.2.3.4]:80".toList = .ok ("::ffff:1.2.3.4".toList, "80".toList) ∧
    parseIPv6 "::ffff:1.2.3.4".toList
      = some [0, 0, 0, 0, 0, 0, 0, 0, 0, 0, 255, 255, 1, 2, 3, 4] ∧
    ∃ md, NewMetadata "[::ffff:1.2.3.4]:80".toList = .ok md ∧
      md.DstIP = some [1, 2, 3, 4] ∧ md.AddrType = ATypIPv4 ∧ md.AddrType ≠ ATypIPv6 :=
  ⟨rfl, rfl, { DstIP := some [1, 2, 3, 4], AddrType := ATypIPv4, DstPort := "80".toList },
    rfl, rfl, rfl, by decide⟩

/-! ## IPv6 text: what `IP.String` prints, `ParseIP` reads back -/

theorem hexDigit_spec : ∀ d, d < 16 →
    ('.' ≠ hexDigit.getD d '0' ∧ ':' ≠ hexDigit.getD d '0') ∧
    ((('0'.toNat ≤ (hexDigit.getD d '0').toNat ∧ (hexDigit.getD d '0').toNat ≤ '9'.toNat) ∧
        (hexDigit.getD d '0').toNat - '0'.toNat = d) ∨
     (¬ ('0'.toNat ≤ (hexDigit.getD d '0').toNat ∧ (hexDigit.getD d '0').toNat ≤ '9'.toNat) ∧
        ('a'.toNat ≤ (hexDigit.getD d '0').toNat ∧ (hexDigit.getD d '0').toNat ≤ 'f'.toNat) ∧
        (hexDigit.getD d '0').toNat - 'a'.toNat + 10 = d)) := by
  decide

theorem xtoiLoop_hexDigit (d : Nat) (hd : d < 16) (cs : GoString) (n i : Nat) :
    xtoiLoop (hexDigit.getD d '0' :: cs) n i =
      if n * 16 + d ≥ big then (0, i, false) else xtoiLoop cs (n * 16 + d) (i + 1) := by
  obtain ⟨_, h | h⟩ := hexDigit_spec d hd
  · obtain ⟨h1, h2⟩ := h
    rw [xtoiLoop, if_pos h1, h2]
  · obtain ⟨h1, h2, h3⟩ := h
    rw [xtoiLoop, if_neg h1, if_pos h2, Nat.add_assoc, h3]

theorem xtoiLoop_colon (cs : GoString) (n i : Nat) :
    xtoiLoop (':' :: cs) n i = (n, i, true) := by
  rw [xtoiLoop, if_neg (by decide), if_neg (by decide), if_neg (by decide)]

theorem appendHex_eq (g : Nat) (hg : g < 65536) :
    appendHex g =
      if g = 0 then ['0']
      else
        (if g / 4096 > 0 then [hexDigit.getD (g / 4096 % 16) '0'] else []) ++
        ((if g / 256 > 0 then [hexDigit.getD (g / 256 % 16) '0'] else []) ++
        ((if g / 16 > 0 then [hexDigit.getD (g / 16 % 16) '0'] else []) ++
        (if g > 0 then [hexDigit.getD (g % 16) '0'] else []))) := by
  by_cases h0 : g = 0
  · simp [appendHex, h0]
  · have h7 : g / 2 ^ (7 * 4) = 0 := by norm_num; omega
    have h6 : g / 2 ^ (6 * 4) = 0 := by norm_num; omega
    have h5 : g / 2 ^ (5 * 4) = 0 := by norm_num; omega
    have h4 : g / 2 ^ (4 * 4) = 0 := by norm_num; omega
    simp only [appendHex, h0, if_false, appendHexLoop, h7, h6, h5, h4]
    norm_num

theorem xtoiLoop_rest (rest : GoString) (n i : Nat)
    (hrest : rest = [] ∨ ∃ t, rest = ':' :: t) : xtoiLoop rest n i = (n, i, true) := by
  rcases hrest with h | ⟨t, h⟩
  · subst h; rfl
  · subst h; exact xtoiLoop_colon t n i

/-- The shapes of the hexadecimal text of a 16-bit group. -/
theorem appendHex_shape (g : Nat) (hg : g < 65536) :
    (g < 16 ∧ appendHex g = [hexDigit.getD g '0']) ∨
    (16 ≤ g ∧ g < 256 ∧ appendHex g = [hexDigit.getD (g / 16) '0', hexDigit.getD (g % 16) '0']) ∨
    (256 ≤ g ∧ g < 4096 ∧ appendHex g =
      [hexDigit.getD (g / 256) '0', hexDigit.getD (g / 16 % 16) '0', hexDigit.getD (g % 16) '0']) ∨
    (4096 ≤ g ∧ appendHex g =
      [hexDigit.getD (g / 4096) '0', hexDigit.getD (g / 256 % 16) '0',
        hexDigit.getD (g / 16 % 16) '0', hexDigit.getD (g % 16) '0']) := by
  rw [appendHex_eq g hg]
  by_cases h0 : g = 0
  · subst h0
    exact Or.inl ⟨by decide, rfl⟩
  · by_cases h1 : g < 16
    · refine Or.inl ⟨h1, ?_⟩
      have a1 : g / 4096 = 0 := by omega
      have a2 : g / 256 = 0 := by omega
      have a3 : g / 16 = 0 := by omega
      have a4 : g % 16 = g := by omega
      have a5 : g > 0 := by omega
      simp [h0, a1, a2, a3, a4, a5]
    · by_cases h2 : g < 256
      · refine Or.inr (Or.inl ⟨by omega, h2, ?_⟩)
        have a1 : g / 4096 = 0 := by omega
        have a2 : g / 256 = 0 := by omega
        have a3 : g / 16 > 0 := by omega
        have a4 : g / 16 % 16 = g / 16 := by omega
        have a5 : g > 0 := by omega
        simp [h0, a1, a2, a3, a4, a5]
      · by_cases h3 : g < 4096
        · refine Or.inr (Or.inr (Or.inl ⟨by omega, h3, ?_⟩))
          have a1 : g / 4096 = 0 := by omega
          have a2 : g / 256 > 0 := by omega
          have a3 : g / 16 > 0 := by omega
          have a4 : g / 256 % 16 = g / 256 := by omega
          have a5 : g > 0 := by omega
          simp [h0, a1, a2, a3, a4, a5]
        · refine Or.inr (Or.inr (Or.inr ⟨by omega, ?_⟩))
          have a1 : g / 4096 > 0 := by omega
          have a2 : g / 256 > 0 := by omega
          have a3 : g / 16 > 0 := by omega
          have a4 : g / 4096 % 16 = g / 4096 := by omega
          have a5 : g > 0 := by omega
          simp [h0, a1, a2, a3, a4, a5]

/-- `xtoi` reads the hexadecimal text of a group back, up to the end of the
string or the next colon. -/
theorem xtoi_appendHex (g : Nat) (hg : g < 65536) (rest : GoString)
    (hrest : rest = [] ∨ ∃ t, rest = ':' :: t) :
    xtoi (appendHex g ++ rest) = (g, (appendHex g).length, true) := by
  have hbig : ∀ n, n < 65536 → ¬ n ≥ big := by
    intro n hn
    simp only [big]
    omega
  rcases appendHex_shape g hg with ⟨h1, hs⟩ | ⟨h1, h2, hs⟩ | ⟨h1, h2, hs⟩ | ⟨h1, hs⟩
  · rw [hs, xtoi]
    simp only [List.cons_append, List.nil_append]
    rw [xtoiLoop_hexDigit g (by omega), if_neg (hbig _ (by omega)), xtoiLoop_rest rest _ _ hrest]
    simp
  · rw [hs, xtoi]
    simp only [List.cons_append, List.nil_append]
    rw [xtoiLoop_hexDigit (g / 16) (by omega), if_neg (hbig _ (by omega)),
      xtoiLoop_hexDigit (g % 16) (by omega), if_neg (hbig _ (by omega)),
      xtoiLoop_rest rest _ _ hrest]
    simp only [List.length_cons, List.length_nil]
    simp
    omega
  · rw [hs, xtoi]
    simp only [List.cons_append, List.nil_append]
    rw [xtoiLoop_hexDigit (g / 256) (by omega), if_neg (hbig _ (by omega)),
      xtoiLoop_hexDigit (g / 16 % 16) (by omega), if_neg (hbig _ (by omega)),
      xtoiLoop_hexDigit (g % 16) (by omega), if_neg (hbig _ (by omega)),
      xtoiLoop_rest rest _ _ hrest]
    simp only [List.length_cons, List.length_nil]
    simp
    omega
  · rw [hs, xtoi]
    simp only [List.cons_append, List.nil_append]
    rw [xtoiLoop_hexDigit (g / 4096) (by omega), if_neg (hbig _ (by omega)),
      xtoiLoop_hexDigit (g / 256 % 16) (by omega), if_neg (hbig _ (by omega)),
      xtoiLoop_hexDigit (g / 16 % 16) (by omega), if_neg (hbig _ (by omega)),
      xtoiLoop_hexDigit (g % 16) (by omega), if_neg (hbig _ (by omega)),
      xtoiLoop_rest rest _ _ hrest]
    simp only [List.length_cons, List.length_nil]
    simp
    omega

/-- The hexadecimal text of a group is not empty and has no separator. -/
theorem appendHex_chars (g : Nat) (hg : g < 65536) :
    appendHex g ≠ [] ∧ '.' ∉ appendHex g ∧ ':' ∉ appendHex g := by
  have hd := fun d (h : d < 16) => (hexDigit_spec d h).1
  rcases appendHex_shape g hg with ⟨h1, hs⟩ | ⟨h1, h2, hs⟩ | ⟨h1, h2, hs⟩ | ⟨h1, hs⟩
  · rw [hs]
    have a := hd g (by omega)
    refine ⟨List.cons_ne_nil _ _, ?_, ?_⟩
    · simp only [List.mem_cons, List.mem_nil_iff, or_false]
      exact a.1
    · simp only [List.mem_cons, List.mem_nil_iff, or_false]
      exact a.2
  · rw [hs]
    have a := hd (g / 16) (by omega)
    have b := hd (g % 16) (by omega)
    refine ⟨List.cons_ne_nil _ _, ?_, ?_⟩
    · simp only [List.mem_cons, List.mem_nil_iff, or_false, not_or]
      exact ⟨a.1, b.1⟩
    · simp only [List.mem_cons, List.mem_nil_iff, or_false, not_or]
      exact ⟨a.2, b.2⟩
  · rw [hs]
    have a := hd (g / 256) (by omega)
    have b := hd (g / 16 % 16) (by omega)
    have c := hd (g % 16) (by omega)
    refine ⟨List.cons_ne_nil _ _, ?_, ?_⟩
    · simp only [List.mem_cons, List.mem_nil_iff, or_false, not_or]
      exact ⟨a.1, b.1, c.1⟩
    · simp only [List.mem_cons, List.mem_nil_iff, or_false, not_or]
      exact ⟨a.2, b.2, c.2⟩
  · rw [hs]
    have a := hd (g / 4096) (by omega)
    have b := hd (g / 256 % 16) (by omega)
    have c := hd (g / 16 % 16) (by omega)
    have e := hd (g % 16) (by omega)
    refine ⟨List.cons_ne_nil _ _, ?_, ?_⟩
    · simp only [List.mem_cons, List.mem_nil_iff, or_false, not_or]
      exact ⟨a.1, b.1, c.1, e.1⟩
    · simp only [List.mem_cons, List.mem_nil_iff, or_false, not_or]
      exact ⟨a.2, b.2, c.2, e.2⟩

theorem appendHex_head (g : Nat) (hg : g < 65536) (more : GoString) :
    (appendHex g ++ more) ≠ [] ∧ (appendHex g ++ more).head? ≠ some ':' ∧
    (appendHex g ++ more).length ≠ 0 := by
  obtain ⟨hne, _, hc⟩ := appendHex_chars g hg
  cases hs : appendHex g with
  | nil => exact absurd hs hne
  | cons c cs =>
    rw [hs] at hc
    simp only [List.mem_cons, not_or] at hc
    refine ⟨by simp, ?_, by simp⟩
    simp only [List.cons_append, List.head?_cons, ne_eq, Option.some.injEq]
    exact fun e => hc.1 e.symm

/-- One round of the loop of `parseIPv6` once `xtoi` has read a group that
is not followed by a dot. -/
theorem parseIPv6Loop_round (f n c : Nat) (s : GoString) (ip : IP) (ell : Option Nat)
    (hx : xtoi s = (n, c, true)) (hn : ¬ n > 0xFFFF) (hip : ip.length < 16)
    (hdot : ¬ (c < s.length ∧ s.get? c = some '.')) :
    parseIPv6Loop (f + 1) s ip ell =
      if s.drop c = [] then some (s.drop c, ip ++ [n / 256, n % 256], ell)
      else if (s.drop c).head? ≠ some ':' ∨ (s.drop c).length = 1 then none
      else if ((s.drop c).drop 1).head? = some ':' then
        if ell.isSome then none
        else if ((s.drop c).drop 1).drop 1 = [] then
          some (((s.drop c).drop 1).drop 1, ip ++ [n / 256, n % 256],
            some (ip ++ [n / 256, n % 256]).length)
        else parseIPv6Loop f (((s.drop c).drop 1).drop 1) (ip ++ [n / 256, n % 256])
          (some (ip ++ [n / 256, n % 256]).length)
      else parseIPv6Loop f ((s.drop c).drop 1) (ip ++ [n / 256, n % 256]) ell := by
  have hip2 : ip.length < IPv6len := hip
  rw [parseIPv6Loop, if_pos hip2]
  simp only [hx]
  rw [if_neg (by simp [hn]), if_neg hdot]

theorem get?_append_length (a b : GoString) : (a ++ b).get? a.length = b.head? := by
  induction a with
  | nil => cases b <;> rfl
  | cons x xs ih => simpa using ih

/-- One round of the loop of `parseIPv6`: a group followed by a single colon
and another group. -/
theorem parseIPv6Loop_group (f g g1 : Nat) (more : GoString) (ip : IP) (ell : Option Nat)
    (hg : g < 65536) (hg1 : g1 < 65536) (hip : ip.length < 16) :
    parseIPv6Loop (f + 1) (appendHex g ++ ':' :: (appendHex g1 ++ more)) ip ell
      = parseIPv6Loop f (appendHex g1 ++ more) (ip ++ [g / 256, g % 256]) ell := by
  have hx := xtoi_appendHex g hg (':' :: (appendHex g1 ++ more)) (Or.inr ⟨_, rfl⟩)
  obtain ⟨h1, h2, h3⟩ := appendHex_head g1 hg1 more
  rw [parseIPv6Loop_round f g _ _ ip ell hx (by omega) hip
    (by rw [get?_append_length]; simp)]
  rw [List.drop_left, if_neg (List.cons_ne_nil _ _), List.head?_cons, List.length_cons,
    if_neg (fun h => h.elim (fun h => h rfl) (fun h => h3 (by omega))), List.drop_succ_cons,
    List.drop_zero, if_neg h2]

/-- One round of the loop of `parseIPv6`: the last group. -/
theorem parseIPv6Loop_last (f g : Nat) (ip : IP) (ell : Option Nat)
    (hg : g < 65536) (hip : ip.length < 16) :
    parseIPv6Loop (f + 1) (appendHex g ++ []) ip ell
      = some ([], ip ++ [g / 256, g % 256], ell) := by
  have hx := xtoi_appendHex g hg [] (Or.inl rfl)
  rw [parseIPv6Loop_round f g _ _ ip ell hx (by omega) hip
    (by rw [get?_append_length]; simp)]
  rw [List.drop_left, if_pos rfl]

/-- One round of the loop of `parseIPv6`: a group followed by `::` and more groups. -/
theorem parseIPv6Loop_ellipsis (f g g1 : Nat) (more : GoString) (ip : IP)
    (hg : g < 65536) (hg1 : g1 < 65536) (hip : ip.length < 16) :
    parseIPv6Loop (f + 1) (appendHex g ++ ':' :: ':' :: (appendHex g1 ++ more)) ip none
      = parseIPv6Loop f (appendHex g1 ++ more) (ip ++ [g / 256, g % 256])
          (some (ip ++ [g / 256, g % 256]).length) := by
  have hx := xtoi_appendHex g hg (':' :: ':' :: (appendHex g1 ++ more)) (Or.inr ⟨_, rfl⟩)
  obtain ⟨h1, h2, h3⟩ := appendHex_head g1 hg1 more
  rw [parseIPv6Loop_round f g _ _ ip none hx (by omega) hip
    (by rw [get?_append_length]; simp)]
  rw [List.drop_left, if_neg (List.cons_ne_nil _ _), List.head?_cons, List.length_cons,
    if_neg (by simp), List.drop_succ_cons, List.drop_zero, List.head?_cons, if_pos rfl,
    if_neg (by simp), List.drop_succ_cons, List.drop_zero, if_neg h1]

/-- One round of the loop of `parseIPv6`: a group followed by a final `::`. -/
theorem parseIPv6Loop_ellipsis_end (f g : Nat) (ip : IP)
    (hg : g < 65536) (hip : ip.length < 16) :
    parseIPv6Loop (f + 1) (appendHex g ++ [':', ':']) ip none
      = some ([], ip ++ [g / 256, g % 256], some (ip ++ [g / 256, g % 256]).length) := by
  have hx := xtoi_appendHex g hg [':', ':'] (Or.inr ⟨_, rfl⟩)
  rw [parseIPv6Loop_round f g _ _ ip none hx (by omega) hip
    (by rw [get?_append_length]; simp)]
  rw [List.drop_left, if_neg (List.cons_ne_nil _ _), List.head?_cons, List.length_cons,
    if_neg (by simp), List.drop_succ_cons, List.drop_zero, List.head?_cons, if_pos rfl,
    if_neg (by simp), List.drop_succ_cons, List.drop_zero, if_pos rfl]

/-- A text that starts with a group has no leading ellipsis. -/
theorem parseIPv6_group (g : Nat) (more : GoString) (hg : g < 65536) :
    parseIPv6 (appendHex g ++ more)
      = match parseIPv6Loop 9 (appendHex g ++ more) [] none with
        | none => none
        | some (s1, ip, e) => parseIPv6Finish s1 ip e := by
  obtain ⟨h1, h2, h3⟩ := appendHex_head g hg more
  have hl : ¬ ((appendHex g ++ more).length ≥ 2 ∧ (appendHex g ++ more).head? = some ':' ∧
      (appendHex g ++ more).get? 1 = some ':') := fun h => h2 h.2.1
  simp only [parseIPv6, hl, decide_False, Bool.false_eq_true, if_false, false_and]
  try rfl

/-- A text that starts with `::` followed by a group. -/
theorem parseIPv6_lead (g : Nat) (more : GoString) (hg : g < 65536) :
    parseIPv6 (':' :: ':' :: (appendHex g ++ more))
      = match parseIPv6Loop 9 (appendHex g ++ more) [] (some 0) with
        | none => none
        | some (s1, ip, e) => parseIPv6Finish s1 ip e := by
  obtain ⟨h1, h2, h3⟩ := appendHex_head g hg more
  have hl : (':' :: ':' :: (appendHex g ++ more)).length ≥ 2 ∧
      (':' :: ':' :: (appendHex g ++ more)).head? = some ':' ∧
      (':' :: ':' :: (appendHex g ++ more)).get? 1 = some ':' := ⟨by simp, rfl, rfl⟩
  simp only [parseIPv6, hl, decide_True, if_true, true_and, List.drop_succ_cons, List.drop_zero,
    h1, if_false, and_self]
  try rfl

/-- The inner loop of the zero-run search stops at an even index, at most 16,
and everything it skipped is zero. -/
theorem zeroRunEnd_spec (p : IP) (fuel j : Nat) (hj : j % 2 = 0) (hj16 : j ≤ 16) :
    j ≤ zeroRunEnd p fuel j ∧ zeroRunEnd p fuel j ≤ 16 ∧ zeroRunEnd p fuel j % 2 = 0 ∧
    ∀ k, j ≤ k → k < zeroRunEnd p fuel j → p.getD k 0 = 0 := by
  induction fuel generalizing j with
  | zero =>
    refine ⟨Nat.le_refl _, hj16, hj, ?_⟩
    intro k h1 h2
    simp only [zeroRunEnd] at h2
    omega
  | succ f ih =>
    by_cases hc : j < IPv6len ∧ p.getD j 0 = 0 ∧ p.getD (j + 1) 0 = 0
    · have hlt : j < 16 := hc.1
      obtain ⟨i1, i2, i3, i4⟩ := ih (j + 2) (by omega) (by omega)
      rw [zeroRunEnd, if_pos hc]
      refine ⟨by omega, i2, i3, ?_⟩
      intro k h1 h2
      by_cases hk : k = j
      · rw [hk]; exact hc.2.1
      · by_cases hk1 : k = j + 1
        · rw [hk1]; exact hc.2.2
        · exact i4 k (by omega) h2
    · rw [zeroRunEnd, if_neg hc]
      refine ⟨Nat.le_refl _, hj16, hj, ?_⟩
      intro k h1 h2
      omega

/-- The run that the zero-run search of `IP.String` keeps is either none or a
stretch of zero bytes between two even indices. -/
theorem longestZeroRun_spec (p : IP) (fuel i : Nat) (e : Int × Int) (hi : i % 2 = 0)
    (he : e = (-1, -1) ∨ ∃ a b : Nat, e = ((a : Int), (b : Int)) ∧ a % 2 = 0 ∧ b % 2 = 0 ∧
      a < b ∧ b ≤ 16 ∧ ∀ k, a ≤ k → k < b → p.getD k 0 = 0) :
    longestZeroRun p fuel i e = (-1, -1) ∨
    ∃ a b : Nat, longestZeroRun p fuel i e = ((a : Int), (b : Int)) ∧ a % 2 = 0 ∧ b % 2 = 0 ∧
      a < b ∧ b ≤ 16 ∧ ∀ k, a ≤ k → k < b → p.getD k 0 = 0 := by
  induction fuel generalizing i e with
  | zero => exact he
  | succ f ih =>
    by_cases h16 : i < IPv6len
    · have hlt : i < 16 := h16
      obtain ⟨z1, z2, z3, z4⟩ := zeroRunEnd_spec p 8 i hi (by omega)
      rw [longestZeroRun, if_pos h16]
      by_cases hc : zeroRunEnd p 8 i > i ∧
          ((zeroRunEnd p 8 i : Nat) : Int) - (i : Int) > e.2 - e.1
      · simp only [hc, and_self, if_true]
        exact ih (zeroRunEnd p 8 i + 2) _ (by omega)
          (Or.inr ⟨i, zeroRunEnd p 8 i, rfl, hi, z3, hc.1, z2, z4⟩)
      · simp only [hc, if_false]
        exact ih (i + 2) e (by omega) he
    · rw [longestZeroRun, if_neg h16]
      exact he

theorem ParseIPScan_colon (s pre post : GoString) (hdot : '.' ∉ pre) (hcolon : ':' ∉ pre) :
    ParseIPScan s (pre ++ ':' :: post) = parseIPv6 s := by
  induction pre with
  | nil => simp [ParseIPScan]
  | cons c cs ih =>
    simp only [List.mem_cons, not_or] at hdot hcolon
    have h1 : ¬ c = '.' := fun e => hdot.1 e.symm
    have h2 : ¬ c = ':' := fun e => hcolon.1 e.symm
    simpa [ParseIPScan, h1, h2] using ih hdot.2 hcolon.2

theorem ParseIP_group (g : Nat) (rest : GoString) (hg : g < 65536) :
    ParseIP (appendHex g ++ ':' :: rest) = parseIPv6 (appendHex g ++ ':' :: rest) := by
  obtain ⟨_, hdot, hcolon⟩ := appendHex_chars g hg
  rw [ParseIP, ParseIPScan_colon _ (appendHex g) rest hdot hcolon]

theorem ParseIP_lead (rest : GoString) :
    ParseIP (':' :: rest) = parseIPv6 (':' :: rest) := by
  simp [ParseIP, ParseIPScan]


set_option maxHeartbeats 4000000 in
/-- Parsing gives back the sixteen bytes from the text that the printing loop
of `IP.String` makes of them, whether no run of zeros is abbreviated or a run
of at least two zero groups is printed as `::`; and that text has a colon. -/
theorem parse_printIPv6Loop (b0 b1 b2 b3 b4 b5 b6 b7 b8 b9 b10 b11 b12 b13 b14 b15 : Nat)
    (h0 : b0 < 256) (h1 : b1 < 256) (h2 : b2 < 256) (h3 : b3 < 256) (h4 : b4 < 256) (h5 : b5 < 256) (h6 : b6 < 256) (h7 : b7 < 256) (h8 : b8 < 256) (h9 : b9 < 256) (h10 : b10 < 256) (h11 : b11 < 256) (h12 : b12 < 256) (h13 : b13 < 256) (h14 : b14 < 256) (h15 : b15 < 256)
    (e0 e1 : Int)
    (hrun : (e0 = -1 ∧ e1 = -1) ∨ ∃ a b : Nat, e0 = (a : Int) ∧ e1 = (b : Int) ∧ a % 2 = 0 ∧
      b % 2 = 0 ∧ a + 4 ≤ b ∧ b ≤ 16 ∧
      ∀ k, a ≤ k → k < b → List.getD [b0, b1, b2, b3, b4, b5, b6, b7, b8, b9, b10, b11, b12, b13, b14, b15] k 0 = 0) :
    ParseIP (printIPv6Loop [b0, b1, b2, b3, b4, b5, b6, b7, b8, b9, b10, b11, b12, b13, b14, b15] e0 e1 8 0) = some [b0, b1, b2, b3, b4, b5, b6, b7, b8, b9, b10, b11, b12, b13, b14, b15] ∧
    ':' ∈ printIPv6Loop [b0, b1, b2, b3, b4, b5, b6, b7, b8, b9, b10, b11, b12, b13, b14, b15] e0 e1 8 0 := by
  have g0 : b0 * 256 + b1 < 65536 := by omega
  have d0 : (b0 * 256 + b1) / 256 = b0 := by omega
  have m0 : (b0 * 256 + b1) % 256 = b1 := by omega
  have g1 : b2 * 256 + b3 < 65536 := by omega
  have d1 : (b2 * 256 + b3) / 256 = b2 := by omega
  have m1 : (b2 * 256 + b3) % 256 = b3 := by omega
  have g2 : b4 * 256 + b5 < 65536 := by omega
  have d2 : (b4 * 256 + b5) / 256 = b4 := by omega
  have m2 : (b4 * 256 + b5) % 256 = b5 := by omega
  have g3 : b6 * 256 + b7 < 65536 := by omega
  have d3 : (b6 * 256 + b7) / 256 = b6 := by omega
  have m3 : (b6 * 256 + b7) % 256 = b7 := by omega
  have g4 : b8 * 256 + b9 < 65536 := by omega
  have d4 : (b8 * 256 + b9) / 256 = b8 := by omega
  have m4 : (b8 * 256 + b9) % 256 = b9 := by omega
  have g5 : b10 * 256 + b11 < 65536 := by omega
  have d5 : (b10 * 256 + b11) / 256 = b10 := by omega
  have m5 : (b10 * 256 + b11) % 256 = b11 := by omega
  have g6 : b12 * 256 + b13 < 65536 := by omega
  have d6 : (b12 * 256 + b13) / 256 = b12 := by omega
  have m6 : (b12 * 256 + b13) % 256 = b13 := by omega
  have g7 : b14 * 256 + b15 < 65536 := by omega
  have d7 : (b14 * 256 + b15) / 256 = b14 := by omega
  have m7 : (b14 * 256 + b15) % 256 = b15 := by omega
  rcases hrun with ⟨rfl, rfl⟩ | ⟨a, b, rfl, rfl, ha, hb, hab, hb16, hz⟩
  · simp only [↓reduceIte, printIPv6Loop, IPv6len, List.getD_cons_zero, List.getD_cons_succ,
      List.append_assoc, List.cons_append, List.nil_append, Nat.reduceAdd, Nat.reduceLT,
      Int.reduceNeg, Nat.cast_ofNat, Nat.cast_zero, Int.reduceEq, gt_iff_lt, Nat.lt_irrefl,
      Nat.ofNat_pos]
    refine ⟨?_, by simp⟩
    rw [ParseIP_group, parseIPv6_group]
    repeat (first
      | rw [parseIPv6Loop_group]
      | rw [parseIPv6Loop_last])
    all_goals first
      | omega
      | (simp only [List.length_append, List.length_cons, List.length_nil]; omega)
      | skip
    simp [parseIPv6Finish, IPv6len, d0, m0, d1, m1, d2, m2, d3, m3, d4, m4, d5, m5, d6, m6, d7, m7]
  · have ha12 : a ≤ 12 := by omega
    interval_cases a <;> first
      | omega
      | (interval_cases b <;> first
          | omega
          | (first | (have z : b0 = 0 := hz 0 (by omega) (by omega); subst z) | skip
             first | (have z : b1 = 0 := hz 1 (by omega) (by omega); subst z) | skip
             first | (have z : b2 = 0 := hz 2 (by omega) (by omega); subst z) | skip
             first | (have z : b3 = 0 := hz 3 (by omega) (by omega); subst z) | skip
             first | (have z : b4 = 0 := hz 4 (by omega) (by omega); subst z) | skip
             first | (have z : b5 = 0 := hz 5 (by omega) (by omega); subst z) | skip
             first | (have z : b6 = 0 := hz 6 (by omega) (by omega); subst z) | skip
             first | (have z : b7 = 0 := hz 7 (by omega) (by omega); subst z) | skip
             first | (have z : b8 = 0 := hz 8 (by omega) (by omega); subst z) | skip
             first | (have z : b9 = 0 := hz 9 (by omega) (by omega); subst z) | skip
             first | (have z : b10 = 0 := hz 10 (by omega) (by omega); subst z) | skip
             first | (have z : b11 = 0 := hz 11 (by omega) (by omega); subst z) | skip
             first | (have z : b12 = 0 := hz 12 (by omega) (by omega); subst z) | skip
             first | (have z : b13 = 0 := hz 13 (by omega) (by omega); subst z) | skip
             first | (have z : b14 = 0 := hz 14 (by omega) (by omega); subst z) | skip
             first | (have z : b15 = 0 := hz 15 (by omega) (by omega); subst z) | skip
             simp only [↓reduceIte, printIPv6Loop, IPv6len, List.getD_cons_zero, List.getD_cons_succ,
               List.append_assoc, List.cons_append, List.nil_append, Nat.reduceAdd, Nat.reduceLT,
               Nat.reduceLeDiff, Nat.reduceGT, Nat.cast_ofNat, Nat.cast_zero, Int.reduceEq, Int.reduceNeg,
               Int.toNat_ofNat, if_true, if_false, Nat.lt_irrefl, gt_iff_lt, ge_iff_le, Int.reduceToNat,
               Nat.reduceEqDiff, OfNat.ofNat_ne_zero, Nat.ofNat_pos, Int.ofNat_eq_coe]
             refine ⟨?_, by simp⟩
             first
               | rw [ParseIP_group]
               | rw [ParseIP_lead]
             first
               | rfl
               | ((first
                     | rw [parseIPv6_group]
                     | rw [parseIPv6_lead])
                  repeat (first
                     | rw [parseIPv6Loop_group]
                     | rw [parseIPv6Loop_ellipsis]
                     | rw [parseIPv6Loop_last]
                     | rw [parseIPv6Loop_ellipsis_end])
                  all_goals first
                     | omega
                     | (simp only [List.length_append, List.length_cons, List.length_nil]; omega)
                     | skip
                  simp [parseIPv6Finish, IPv6len, d0, m0, d1, m1, d2, m2, d3, m3, d4, m4, d5, m5, d6, m6, d7, m7])))

theorem list_cons_of_length (p : IP) (n : Nat) (h : p.length = n + 1) :
    ∃ x t, p = x :: t ∧ t.length = n := by
  cases p with
  | nil => simp at h
  | cons x t => exact ⟨x, t, rfl, by simpa using h⟩

/-- For a 16-byte address that is not IPv4, `IP.String` is the printing loop
run on the zero run that the search found. -/
theorem IP_String_of_IPv6 (p : IP) (hlen : p.length = 16) (h4 : IP.To4 p = none) :
    IP.String p =
      printIPv6Loop p
        (if (longestZeroRun p 8 0 (-1, -1)).2 - (longestZeroRun p 8 0 (-1, -1)).1 ≤ 2
          then ((-1 : Int), (-1 : Int)) else longestZeroRun p 8 0 (-1, -1)).1
        (if (longestZeroRun p 8 0 (-1, -1)).2 - (longestZeroRun p 8 0 (-1, -1)).1 ≤ 2
          then ((-1 : Int), (-1 : Int)) else longestZeroRun p 8 0 (-1, -1)).2 8 0 := by
  have h0 : ¬ p.length = 0 := by omega
  have h16 : ¬ p.length ≠ IPv6len := by simp [IPv6len, hlen]
  rw [IP.String, if_neg h0, h4]
  simp only [h16, if_false]

/-- Parsing the text that `IP.String` prints for a 16-byte address that is not
IPv4 gives the address back, and that text has a colon. -/
theorem ParseIP_String_of_IPv6 (p : IP) (hlen : p.length = 16) (hb : ∀ x ∈ p, x < 256)
    (h4 : IP.To4 p = none) :
    ParseIP (IP.String p) = some p ∧ ':' ∈ IP.String p := by
  rw [IP_String_of_IPv6 p hlen h4]
  have hrun := longestZeroRun_spec p 8 0 (-1, -1) rfl (Or.inl rfl)
  have hgood : ((if (longestZeroRun p 8 0 (-1, -1)).2 - (longestZeroRun p 8 0 (-1, -1)).1 ≤ 2
        then ((-1 : Int), (-1 : Int)) else longestZeroRun p 8 0 (-1, -1)).1 = -1 ∧
      (if (longestZeroRun p 8 0 (-1, -1)).2 - (longestZeroRun p 8 0 (-1, -1)).1 ≤ 2
        then ((-1 : Int), (-1 : Int)) else longestZeroRun p 8 0 (-1, -1)).2 = -1) ∨
      ∃ a b : Nat,
        (if (longestZeroRun p 8 0 (-1, -1)).2 - (longestZeroRun p 8 0 (-1, -1)).1 ≤ 2
          then ((-1 : Int), (-1 : Int)) else longestZeroRun p 8 0 (-1, -1)).1 = (a : Int) ∧
        (if (longestZeroRun p 8 0 (-1, -1)).2 - (longestZeroRun p 8 0 (-1, -1)).1 ≤ 2
          then ((-1 : Int), (-1 : Int)) else longestZeroRun p 8 0 (-1, -1)).2 = (b : Int) ∧
        a % 2 = 0 ∧ b % 2 = 0 ∧ a + 4 ≤ b ∧ b ≤ 16 ∧ ∀ k, a ≤ k → k < b → p.getD k 0 = 0 := by
    rcases hrun with h | ⟨a, b, h, ha, hb2, hab, hb16, hz⟩
    · rw [h]
      exact Or.inl ⟨by simp, by simp⟩
    · rw [h]
      by_cases hsmall : ((b : Int) - (a : Int) ≤ 2)
      · exact Or.inl ⟨by simp [hsmall], by simp [hsmall]⟩
      · exact Or.inr ⟨a, b, by simp [hsmall], by simp [hsmall], ha, hb2, by omega, hb16, hz⟩
  revert hgood
  generalize (if (longestZeroRun p 8 0 (-1, -1)).2 - (longestZeroRun p 8 0 (-1, -1)).1 ≤ 2
      then ((-1 : Int), (-1 : Int)) else longestZeroRun p 8 0 (-1, -1)) = e
  intro hgood
  obtain ⟨b0, p, rfl, l15⟩ := list_cons_of_length p 15 hlen
  obtain ⟨b1, p, rfl, l14⟩ := list_cons_of_length p 14 l15
  obtain ⟨b2, p, rfl, l13⟩ := list_cons_of_length p 13 l14
  obtain ⟨b3, p, rfl, l12⟩ := list_cons_of_length p 12 l13
  obtain ⟨b4, p, rfl, l11⟩ := list_cons_of_length p 11 l12
  obtain ⟨b5, p, rfl, l10⟩ := list_cons_of_length p 10 l11
  obtain ⟨b6, p, rfl, l9⟩ := list_cons_of_length p 9 l10
  obtain ⟨b7, p, rfl, l8⟩ := list_cons_of_length p 8 l9
  obtain ⟨b8, p, rfl, l7⟩ := list_cons_of_length p 7 l8
  obtain ⟨b9, p, rfl, l6⟩ := list_cons_of_length p 6 l7
  obtain ⟨b10, p, rfl, l5⟩ := list_cons_of_length p 5 l6
  obtain ⟨b11, p, rfl, l4⟩ := list_cons_of_length p 4 l5
  obtain ⟨b12, p, rfl, l3⟩ := list_cons_of_length p 3 l4
  obtain ⟨b13, p, rfl, l2⟩ := list_cons_of_length p 2 l3
  obtain ⟨b14, p, rfl, l1⟩ := list_cons_of_length p 1 l2
  obtain ⟨b15, p, rfl, l0⟩ := list_cons_of_length p 0 l1
  obtain rfl := List.length_eq_zero.1 l0
  simp only [List.mem_cons, List.mem_nil_iff, or_false, forall_eq_or_imp, forall_eq] at hb
  obtain ⟨h0, h1, h2, h3, h4, h5, h6, h7, h8, h9, h10, h11, h12, h13, h14, h15⟩ := hb
  exact parse_printIPv6Loop b0 b1 b2 b3 b4 b5 b6 b7 b8 b9 b10 b11 b12 b13 b14 b15
    h0 h1 h2 h3 h4 h5 h6 h7 h8 h9 h10 h11 h12 h13 h14 h15 e.1 e.2 hgood

theorem hexDigit_no_bracket : ∀ d, d < 16 →
    '[' ≠ hexDigit.getD d '0' ∧ ']' ≠ hexDigit.getD d '0' := by
  decide

theorem appendHexLoop_no_bracket (i k : Nat) :
    '[' ∉ appendHexLoop i k ∧ ']' ∉ appendHexLoop i k := by
  induction k with
  | zero => simp [appendHexLoop]
  | succ k ih =>
    have hd := hexDigit_no_bracket (i / 2 ^ (k * 4) % 16) (Nat.mod_lt _ (by decide))
    rw [appendHexLoop]
    by_cases hv : i / 2 ^ (k * 4) > 0
    · simp only [hv, if_true, List.singleton_append, List.mem_cons, not_or]
      exact ⟨⟨hd.1, ih.1⟩, ⟨hd.2, ih.2⟩⟩
    · simp only [hv, if_false, List.nil_append]
      exact ih

theorem appendHex_no_bracket (i : Nat) : '[' ∉ appendHex i ∧ ']' ∉ appendHex i := by
  rw [appendHex]
  by_cases h : i = 0
  · simp [h]
  · simp only [h, if_false]
    exact appendHexLoop_no_bracket i 8

theorem printIPv6Loop_no_bracket (p : IP) (e0 e1 : Int) (fuel i : Nat) :
    '[' ∉ printIPv6Loop p e0 e1 fuel i ∧ ']' ∉ printIPv6Loop p e0 e1 fuel i := by
  induction fuel generalizing i with
  | zero => simp [printIPv6Loop]
  | succ f ih =>
    rw [printIPv6Loop]
    by_cases h16 : i < IPv6len
    · rw [if_pos h16]
      by_cases he : (i : Int) = e0
      · rw [if_pos he]
        by_cases hge : e1.toNat ≥ IPv6len
        · simp only [hge, if_true]
          exact ⟨by decide, by decide⟩
        · have h1 := appendHex_no_bracket
            (p.getD e1.toNat 0 * 256 + p.getD (e1.toNat + 1) 0)
          have h2 := ih (e1.toNat + 2)
          simp only [hge, if_false, List.mem_append, List.mem_cons, List.mem_nil_iff, or_false,
            not_or]
          exact ⟨⟨⟨⟨by decide, by decide⟩, h1.1⟩, h2.1⟩, ⟨⟨⟨by decide, by decide⟩, h1.2⟩, h2.2⟩⟩
      · rw [if_neg he]
        have h1 := appendHex_no_bracket (p.getD i 0 * 256 + p.getD (i + 1) 0)
        have h2 := ih (i + 2)
        have h3 : '[' ∉ (if i > 0 then [':'] else []) ∧ ']' ∉ (if i > 0 then [':'] else []) := by
          by_cases hi : i > 0
          · simp only [hi, if_true]
            exact ⟨by decide, by decide⟩
          · simp only [hi, if_false]
            exact ⟨by simp, by simp⟩
        simp only [List.mem_append, not_or]
        exact ⟨⟨⟨h3.1, h1.1⟩, h2.1⟩, ⟨⟨h3.2, h1.2⟩, h2.2⟩⟩
    · rw [if_neg h16]
      exact ⟨by simp, by simp⟩

/-- The text that `IP.String` prints for a 16-byte address that is not IPv4
has no bracket. -/
theorem IP_String_no_bracket (p : IP) (hlen : p.length = 16) (h4 : IP.To4 p = none) :
    '[' ∉ IP.String p ∧ ']' ∉ IP.String p := by
  rw [IP_String_of_IPv6 p hlen h4]
  exact printIPv6Loop_no_bracket p _ _ 8 0

/-! ## The round trip of `NewMetadata` and `RemoteAddress` -/

/-- The round trip for a host that is printed as it was written. -/
theorem roundtrip_of_canonical (host port : GoString)
    (hne : host ≠ [])
    (ho : '[' ∉ host) (hcl : ']' ∉ host)
    (pc : ':' ∉ port) (po : '[' ∉ port) (pcl : ']' ∉ port)
    (hcanon : ∀ ip, ParseIP host = some ip → IP.String ((IP.To4 ip).getD ip) = host) :
    (':' ∉ host → ∃ md, NewMetadata (host ++ [':'] ++ port) = .ok md ∧
        md.RemoteAddress = host ++ [':'] ++ port) ∧
    (':' ∈ host → ∃ md, NewMetadata (['['] ++ host ++ [']', ':'] ++ port) = .ok md ∧
        md.RemoteAddress = ['['] ++ host ++ [']', ':'] ++ port) := by
  constructor
  · intro hc
    have hs := SplitHostPort_plain host port hc ho hcl pc po pcl
    have hs2 : SplitHostPort (host ++ [':'] ++ port) = .ok (host, port) := by simpa using hs
    obtain ⟨md, hmd, hra⟩ := RemoteAddress_of_canonical _ host port hs2 hne hcanon
    refine ⟨md, hmd, ?_⟩
    rw [hra]
    simp [JoinHostPort, indexByteString_of_not_mem host ':' hc]
  · intro hc
    have hs := SplitHostPort_bracket host port ho hcl pc po pcl
    have hs2 : SplitHostPort (['['] ++ host ++ [']', ':'] ++ port) = .ok (host, port) := by
      simpa using hs
    obtain ⟨md, hmd, hra⟩ := RemoteAddress_of_canonical _ host port hs2 hne hcanon
    refine ⟨md, hmd, ?_⟩
    rw [hra]
    simp [JoinHostPort, indexByteString_of_mem host ':' hc]

/-- C1 (amended): round trip for canonical address strings.  With a port
that has no colon or bracket, `NewMetadata` succeeds and `RemoteAddress` gives
the input back
* for `name:port`, the name having no colon or bracket and not starting with
  a decimal digit;
* for `a.b.c.d:port`, a dotted quad of four bytes in decimal without leading
  zeros;
* for `[text]:port`, the text being what `IP.String` prints for a 16-byte
  address that is not IPv4-mapped;
* and in general for `host:port` (host without colon) and `[host]:port` (host
  with a colon) whenever the host is not empty, has no bracket and is either
  no IP literal or an IP literal that `IP.String` prints as it is written. -/
theorem NewMetadata_RemoteAddress_roundtrip (host port : GoString) (c : Char) (cs : GoString)
    (a b e d : Nat) (p : IP)
    (pc : ':' ∉ port) (po : '[' ∉ port) (pcl : ']' ∉ port) :
    (¬ ('0'.toNat ≤ c.toNat ∧ c.toNat ≤ '9'.toNat) → ':' ∉ c :: cs → '[' ∉ c :: cs →
      ']' ∉ c :: cs →
      ∃ md, NewMetadata ((c :: cs) ++ [':'] ++ port) = .ok md ∧
        md.RemoteAddress = (c :: cs) ++ [':'] ++ port) ∧
    (a < 256 → b < 256 → e < 256 → d < 256 →
      ∃ md, NewMetadata
          (ubtoa a ++ ['.'] ++ ubtoa b ++ ['.'] ++ ubtoa e ++ ['.'] ++ ubtoa d ++ [':'] ++ port)
          = .ok md ∧
        md.RemoteAddress
          = ubtoa a ++ ['.'] ++ ubtoa b ++ ['.'] ++ ubtoa e ++ ['.'] ++ ubtoa d ++ [':'] ++ port) ∧
    (p.length = 16 → (∀ x ∈ p, x < 256) → IP.To4 p = none →
      ∃ md, NewMetadata (['['] ++ IP.String p ++ [']', ':'] ++ port) = .ok md ∧
        md.RemoteAddress = ['['] ++ IP.String p ++ [']', ':'] ++ port) ∧
    (host ≠ [] → '[' ∉ host → ']' ∉ host →
      (∀ ip, ParseIP host = some ip → IP.String ((IP.To4 ip).getD ip) = host) →
      (':' ∉ host → ∃ md, NewMetadata (host ++ [':'] ++ port) = .ok md ∧
          md.RemoteAddress = host ++ [':'] ++ port) ∧
      (':' ∈ host → ∃ md, NewMetadata (['['] ++ host ++ [']', ':'] ++ port) = .ok md ∧
          md.RemoteAddress = ['['] ++ host ++ [']', ':'] ++ port)) := by
  refine ⟨?_, ?_, ?_, ?_⟩
  · intro hdigit hcolon hopen hclose
    exact (roundtrip_of_canonical (c :: cs) port (List.cons_ne_nil _ _) hopen hclose pc po pcl
      (name_canonical c cs hdigit hcolon)).1 hcolon
  · intro ha hb he hd
    obtain ⟨na, _, _, _, ac⟩ := ubtoa_spec a ha
    obtain ⟨_, _, _, _, bc⟩ := ubtoa_spec b hb
    obtain ⟨_, _, _, _, ec⟩ := ubtoa_spec e he
    obtain ⟨_, _, _, _, dc⟩ := ubtoa_spec d hd
    have hbr := ubtoa_no_bracket
    have hne : ubtoa a ++ ['.'] ++ ubtoa b ++ ['.'] ++ ubtoa e ++ ['.'] ++ ubtoa d ≠ [] := by
      simp [na]
    have hcol : ':' ∉ ubtoa a ++ ['.'] ++ ubtoa b ++ ['.'] ++ ubtoa e ++ ['.'] ++ ubtoa d := by
      simp [ac, bc, ec, dc]
    have hop : '[' ∉ ubtoa a ++ ['.'] ++ ubtoa b ++ ['.'] ++ ubtoa e ++ ['.'] ++ ubtoa d := by
      simp [(hbr a ha).1, (hbr b hb).1, (hbr e he).1, (hbr d hd).1]
    have hcl : ']' ∉ ubtoa a ++ ['.'] ++ ubtoa b ++ ['.'] ++ ubtoa e ++ ['.'] ++ ubtoa d := by
      simp [(hbr a ha).2, (hbr b hb).2, (hbr e he).2, (hbr d hd).2]
    exact (roundtrip_of_canonical _ port hne hop hcl pc po pcl
      (dottedQuad_canonical a b e d ha hb he hd)).1 hcol
  · intro hlen hbytes h4
    obtain ⟨hparse, hcolon⟩ := ParseIP_String_of_IPv6 p hlen hbytes h4
    obtain ⟨hop, hcl⟩ := IP_String_no_bracket p hlen h4
    have hne : IP.String p ≠ [] := by
      intro h0
      rw [h0] at hcolon
      simp at hcolon
    refine (roundtrip_of_canonical (IP.String p) port hne hop hcl pc po pcl ?_).2 hcolon
    intro ip hip
    rw [hparse] at hip
    cases hip
    rw [h4]
    rfl
  · intro hne hop hcl hcanon
    exact roundtrip_of_canonical host port hne hop hcl pc po pcl hcanon

/-- Witness for C1: `a:443`, `255.255.255.255:443`, `[2001:db8::1]:443` and `[::1]:443`. -/
theorem NewMetadata_RemoteAddress_roundtrip_witness :
    (∃ md, NewMetadata "a:443".toList = .ok md ∧ md.RemoteAddress = "a:443".toList) ∧
    (∃ md, NewMetadata "255.255.255.255:443".toList = .ok md ∧
      md.RemoteAddress = "255.255.255.255:443".toList) ∧
    (∃ md, NewMetadata "[2001:db8::1]:443".toList = .ok md ∧
      md.RemoteAddress = "[2001:db8::1]:443".toList) ∧
    (∃ md, NewMetadata "[::1]:443".toList = .ok md ∧ md.RemoteAddress = "[::1]:443".toList) :=
  have h := NewMetadata_RemoteAddress_roundtrip "::1".toList "443".toList 'a' [] 255 255 255 255
    [32, 1, 13, 184, 0, 0, 0, 0, 0, 0, 0, 0, 0, 0, 0, 1] (by decide) (by decide) (by decide)
  ⟨h.1 (by decide) (by decide) (by decide) (by decide),
    h.2.1 (by decide) (by decide) (by decide) (by decide),
    h.2.2.1 rfl (by decide) rfl,
    (h.2.2.2 (by decide) (by decide) (by decide)
      (fun ip hip => by
        have hp : ParseIP "::1".toList = some [0, 0, 0, 0, 0, 0, 0, 0, 0, 0, 0, 0, 0, 0, 0, 1] :=
          rfl
        rw [hp] at hip
        cases hip
        rfl)).2 (by decide)⟩

/-- Counterexample to C1: `[0:0:0:0:0:0:0:1]:80` is a valid `[ipv6]:port`
string, is accepted, and prints as `[::1]:80`. -/
theorem NewMetadata_RemoteAddress_not_roundtrip :
    ∃ md, NewMetadata "[0:0:0:0:0:0:0:1]:80".toList = .ok md ∧
      md.RemoteAddress = "[::1]:80".toList ∧
      md.RemoteAddress ≠ "[0:0:0:0:0:0:0:1]:80".toList :=
  ⟨{ DstIP := some [0, 0, 0, 0, 0, 0, 0, 0, 0, 0, 0, 0, 0, 0, 0, 1], AddrType := ATypIPv6,
     DstPort := "80".toList }, rfl, rfl, by decide⟩

/-! ## Dialling through a chain of adapters -/

section DialFacts

variable {W : Type}

/-- A returned connection carries the one-element chain made by `NewConn`. -/
theorem DialContext_chain_singleton (env : Env W) (A : ProxyAdapter)
    (metadata : Option Metadata) (w w1 : W) (c : conn) (err : Option GoError)
    (h : A.DialContext env metadata w = .ret (some c) err w1) :
    c.Chains = [A.Name] := by
  cases A with
  | nil => simp [ProxyAdapter.DialContext] at h
  | Direct d dialer =>
    simp only [ProxyAdapter.DialContext] at h
    split at h
    · cases h
    · split at h
      · cases h
      · cases h
        rfl
  | Socks5 ss dialer =>
    simp only [ProxyAdapter.DialContext] at h
    split at h
    · cases h
    · cases h
    · split at h
      · cases h
      · cases h
      · cases h
        rfl
  | ShadowSocks ss dialer =>
    simp only [ProxyAdapter.DialContext] at h
    split at h
    · cases h
    · cases h
    · split at h
      · cases h
      · cases h
        rfl
  | ShadowSocksR ssr dialer =>
    simp only [ProxyAdapter.DialContext] at h
    split at h
    · cases h
    · cases h
    · split at h
      · cases h
      · cases h
        rfl
  | Trojan t dialer =>
    simp only [ProxyAdapter.DialContext] at h
    split at h
    · cases h
    · cases h
    · split at h
      · cases h
      · cases h
      · cases h
        rfl

end DialFacts

/-- C2 (amended): chain tracking records one layer.  For every adapter `A`
whose upstream dialer is an adapter `B` whose upstream is a Direct adapter,
whenever `A.DialContext` returns a connection with a nil error, `Chains()` of
that connection is exactly `[A.Name()]`: the name of `B` is not in it. -/
theorem DialContext_Chains (W : Type) (env : Env W) (A B : ProxyAdapter) (d : Direct)
    (x : ProxyAdapter) (metadata : Option Metadata) (w w1 : W) (c : conn)
    (_hA : A.dialer = B) (_hB : B.dialer = .Direct d x)
    (h : A.DialContext env metadata w = .ret (some c) none w1) :
    c.Chains = [A.Name] :=
  DialContext_chain_singleton env A metadata w w1 c none h

/-- Witness for C2: `A` over `B` over Direct in a world where every step succeeds. -/
theorem DialContext_Chains_witness :
    exampleA.dialer = exampleB ∧ exampleB.dialer = NewDirect.1 ∧
    exampleA.DialContext (scriptedEnv none none) (some exampleDestination) []
      = .ret (some { Conn := .conn (.conn (.raw 0) [[]]) ["B".toList], chain := ["A".toList] })
          none ["10.0.0.2:1080".toList] ∧
    conn.Chains { Conn := .conn (.conn (.raw 0) [[]]) ["B".toList], chain := ["A".toList] }
      = [exampleA.Name] :=
  ⟨rfl, rfl, rfl,
    DialContext_Chains (List GoString) (scriptedEnv none none) exampleA exampleB
      { Base := { tp := .Shadowsocks } } .nil (some exampleDestination) [] _ _ rfl rfl rfl⟩

/-- Counterexample to C2: `A` (upstream `B`, upstream Direct), every dial and
handshake succeeding; the returned connection has chain `["A"]`, not
`["A", "B"]`. -/
theorem DialContext_Chains_not_A_B :
    ∃ c w1, exampleA.DialContext (scriptedEnv none none) (some exampleDestination) []
        = .ret (some c) none w1 ∧
      exampleA.Name = "A".toList ∧ exampleB.Name = "B".toList ∧
      c.Chains = ["A".toList] ∧ c.Chains ≠ [exampleA.Name, exampleB.Name] :=
  ⟨{ Conn := .conn (.conn (.raw 0) [[]]) ["B".toList], chain := ["A".toList] },
    ["10.0.0.2:1080".toList], rfl, rfl, rfl, rfl, by decide⟩

section DialFacts

variable {W : Type}

/-- Go `Direct`, `Socks5` and `Trojan` return from `DialContext` either a
connection and a nil error or no connection and an error. -/
theorem DialContext_conn_xor_error (env : Env W) (A : ProxyAdapter)
    (metadata : Option Metadata) (w w1 : W) (c : Option conn) (err : Option GoError)
    (hss : ∀ ss x, A ≠ .ShadowSocks ss x) (hssr : ∀ ssr x, A ≠ .ShadowSocksR ssr x)
    (h : A.DialContext env metadata w = .ret c err w1) :
    (c.isSome = true ∧ err = none) ∨ (c = none ∧ err.isSome = true) := by
  cases A with
  | nil => simp [ProxyAdapter.DialContext] at h
  | Direct d dialer =>
    simp only [ProxyAdapter.DialContext] at h
    split at h
    · cases h
    · split at h
      · cases h
        exact Or.inr ⟨rfl, rfl⟩
      · cases h
        exact Or.inl ⟨rfl, rfl⟩
  | Socks5 ss dialer =>
    simp only [ProxyAdapter.DialContext] at h
    split at h
    · cases h
    · cases h
      exact Or.inr ⟨rfl, rfl⟩
    · split at h
      · cases h
      · cases h
        exact Or.inr ⟨rfl, rfl⟩
      · cases h
        exact Or.inl ⟨rfl, rfl⟩
  | ShadowSocks ss dialer => exact absurd rfl (hss ss dialer)
  | ShadowSocksR ssr dialer => exact absurd rfl (hssr ssr dialer)
  | Trojan t dialer =>
    simp only [ProxyAdapter.DialContext] at h
    split at h
    · cases h
    · cases h
      exact Or.inr ⟨rfl, rfl⟩
    · split at h
      · cases h
      · cases h
        exact Or.inr ⟨rfl, rfl⟩
      · cases h
        exact Or.inl ⟨rfl, rfl⟩

/-- Every adapter returns from `DialUDP` either a datagram socket and a nil
error or no socket and an error. -/
theorem DialUDP_conn_xor_error (env : Env W) (A : ProxyAdapter)
    (metadata : Option Metadata) (w w1 : W) (c : Option packetConn) (err : Option GoError)
    (h : A.DialUDP env metadata w = .ret c err w1) :
    (c.isSome = true ∧ err = none) ∨ (c = none ∧ err.isSome = true) := by
  cases A with
  | nil => simp [ProxyAdapter.DialUDP] at h
  | Direct d dialer =>
    simp only [ProxyAdapter.DialUDP] at h
    repeat' split at h
    all_goals first
      | cases h; exact Or.inr ⟨rfl, rfl⟩
      | cases h; exact Or.inl ⟨rfl, rfl⟩
      | cases h
  | Socks5 ss dialer =>
    simp only [ProxyAdapter.DialUDP] at h
    repeat' split at h
    all_goals first
      | cases h; exact Or.inr ⟨rfl, rfl⟩
      | cases h; exact Or.inl ⟨rfl, rfl⟩
      | cases h
  | ShadowSocks ss dialer =>
    simp only [ProxyAdapter.DialUDP] at h
    repeat' split at h
    all_goals first
      | cases h; exact Or.inr ⟨rfl, rfl⟩
      | cases h; exact Or.inl ⟨rfl, rfl⟩
      | cases h
  | ShadowSocksR ssr dialer =>
    simp only [ProxyAdapter.DialUDP] at h
    repeat' split at h
    all_goals first
      | cases h; exact Or.inr ⟨rfl, rfl⟩
      | cases h; exact Or.inl ⟨rfl, rfl⟩
      | cases h
  | Trojan t dialer =>
    simp only [ProxyAdapter.DialUDP] at h
    repeat' split at h
    all_goals first
      | cases h; exact Or.inr ⟨rfl, rfl⟩
      | cases h; exact Or.inl ⟨rfl, rfl⟩
      | cases h

end DialFacts

section DialFacts

variable {W : Type}

/-- `ShadowSocks.DialContext` and `ShadowSocksR.DialContext` do not look at the
error of `StreamConn`: after a successful upstream dial they return the
wrapper around whatever connection `StreamConn` returned, together with its
error. -/
theorem DialContext_keeps_StreamConn_error (env : Env W) (A : ProxyAdapter)
    (metadata : Option Metadata) (w w1 w2 : W) (con : Option conn) (c : NetConn)
    (err : Option GoError)
    (hA : (∃ ss x, A = .ShadowSocks ss x) ∨ (∃ ssr x, A = .ShadowSocksR ssr x))
    (hd : A.dialer.DialContext env (A.base.bind (·.addrMetadata)) w = .ret con none w1)
    (hs : A.StreamConn env (conn.toNetConn con) metadata w1 = .ret c err w2) :
    A.DialContext env metadata w = .ret (some (NewConn c A)) err w2 := by
  rcases hA with ⟨ss, x, rfl⟩ | ⟨ssr, x, rfl⟩
  · simp only [ProxyAdapter.dialer, ProxyAdapter.base, Option.some_bind] at hd
    simp only [ProxyAdapter.StreamConn] at hs
    simp [ProxyAdapter.DialContext, hd, hs]
  · simp only [ProxyAdapter.dialer, ProxyAdapter.base, Option.some_bind] at hd
    simp only [ProxyAdapter.StreamConn] at hs
    simp [ProxyAdapter.DialContext, hd, hs]

end DialFacts

/-- C3 (the code at the failing input): a Shadowsocks adapter with the
websocket plugin over a Direct upstream, the upstream dial succeeding and the
websocket handshake failing.  `StreamConn` returns `(nil, err)` and
`DialContext` returns the wrapper `NewConn(nil, ss)`, which is not nil,
together with the error. -/
theorem ShadowSocks_DialContext_conn_and_error :
    exampleSS.DialContext (scriptedEnv none (some (.new "bad handshake".toList)))
        (some exampleDestination) []
      = .ret (some { Conn := .nil, chain := ["ss".toList] })
          (some (.wrap "10.0.0.3:8388 connect error: ".toList (.new "bad handshake".toList)))
          ["10.0.0.3:8388".toList] := by
  rfl

section DialFacts

variable {W : Type}

/-- An adapter other than `Direct` whose `dialer` is nil faults in `DialContext`. -/
theorem DialContext_fault_of_nil_dialer (env : Env W) (A : ProxyAdapter)
    (metadata : Option Metadata) (w : W)
    (hdirect : ∀ d0 x0, A ≠ .Direct d0 x0) (hd : A.dialer = .nil) :
    A.DialContext env metadata w = .fault := by
  cases A with
  | nil => rfl
  | Direct d dialer => exact absurd rfl (hdirect d dialer)
  | Socks5 ss dialer =>
    simp only [ProxyAdapter.dialer] at hd
    subst hd
    simp [ProxyAdapter.DialContext]
  | ShadowSocks ss dialer =>
    simp only [ProxyAdapter.dialer] at hd
    subst hd
    simp [ProxyAdapter.DialContext]
  | ShadowSocksR ssr dialer =>
    simp only [ProxyAdapter.dialer] at hd
    subst hd
    simp [ProxyAdapter.DialContext]
  | Trojan t dialer =>
    simp only [ProxyAdapter.dialer] at hd
    subst hd
    simp [ProxyAdapter.DialContext]

/-- What `Direct.DialContext` does when the operating-system dial fails. -/
theorem Direct_DialContext_error (env : Env W) (d : Direct) (x : ProxyAdapter)
    (m : Metadata) (w : W) (e : GoError)
    (he : (env.dialContext m.RemoteAddress w).1.2 = some e) :
    (ProxyAdapter.Direct d x).DialContext env (some m) w
      = .ret none (some (.wrap (d.Base.addr ++ " connect error: ".toList) e))
          (env.dialContext m.RemoteAddress w).2 := by
  simp [ProxyAdapter.DialContext, he]

/-- What `Direct.DialContext` does when the operating-system dial succeeds. -/
theorem Direct_DialContext_ok (env : Env W) (d : Direct) (x : ProxyAdapter)
    (m : Metadata) (w : W)
    (he : (env.dialContext m.RemoteAddress w).1.2 = none) :
    (ProxyAdapter.Direct d x).DialContext env (some m) w
      = .ret (some (NewConn (env.dialContext m.RemoteAddress w).1.1 (.Direct d x))) none
          (env.tcpKeepAlive (env.dialContext m.RemoteAddress w).1.1
            (env.dialContext m.RemoteAddress w).2) := by
  simp [ProxyAdapter.DialContext, he]

/-- An adapter other than `Direct` hands an error of its upstream dialer back
as it is, in the world the upstream call left. -/
theorem DialContext_upstream_error_forwarded (env : Env W) (A : ProxyAdapter)
    (metadata : Option Metadata) (w w1 : W) (c0 : Option conn) (e : GoError)
    (hdirect : ∀ d0 x0, A ≠ .Direct d0 x0)
    (h : A.dialer.DialContext env (A.base.bind (·.addrMetadata)) w = .ret c0 (some e) w1) :
    A.DialContext env metadata w = .ret none (some e) w1 := by
  cases A with
  | nil => simp [ProxyAdapter.dialer, ProxyAdapter.DialContext] at h
  | Direct d dialer => exact absurd rfl (hdirect d dialer)
  | Socks5 ss dialer =>
    simp only [ProxyAdapter.dialer, ProxyAdapter.base, Option.some_bind] at h
    simp [ProxyAdapter.DialContext, h]
  | ShadowSocks ss dialer =>
    simp only [ProxyAdapter.dialer, ProxyAdapter.base, Option.some_bind] at h
    simp [ProxyAdapter.DialContext, h]
  | ShadowSocksR ssr dialer =>
    simp only [ProxyAdapter.dialer, ProxyAdapter.base, Option.some_bind] at h
    simp [ProxyAdapter.DialContext, h]
  | Trojan t dialer =>
    simp only [ProxyAdapter.dialer, ProxyAdapter.base, Option.some_bind] at h
    simp [ProxyAdapter.DialContext, h]

/-- With a Direct upstream whose dial succeeds, an adapter runs its
`StreamConn` on the connection the Direct adapter returned, and a successful
`StreamConn` gives the result of `DialContext`. -/
theorem DialContext_over_Direct_ok (env : Env W) (A : ProxyAdapter) (d : Direct)
    (x : ProxyAdapter) (m : Metadata) (metadata : Option Metadata) (w w2 : W) (c : NetConn)
    (hdirect : ∀ d0 x0, A ≠ .Direct d0 x0)
    (hm : A.base.bind (·.addrMetadata) = some m)
    (he : (env.dialContext m.RemoteAddress w).1.2 = none)
    (hs : A.StreamConn env
        (.conn (env.dialContext m.RemoteAddress w).1.1 [d.Base.name]) metadata
        (env.tcpKeepAlive (env.dialContext m.RemoteAddress w).1.1
          (env.dialContext m.RemoteAddress w).2) = .ret c none w2) :
    (A.SetDialer (.Direct d x)).DialContext env metadata w
      = .ret (some (NewConn c (A.SetDialer (.Direct d x)))) none w2 := by
  cases A with
  | nil => simp [ProxyAdapter.base] at hm
  | Direct d0 dialer => exact absurd rfl (hdirect d0 dialer)
  | Socks5 ss dialer =>
    simp only [ProxyAdapter.base, Option.some_bind] at hm
    simp only [ProxyAdapter.StreamConn] at hs
    simp [ProxyAdapter.SetDialer, ProxyAdapter.DialContext, hm, he, conn.toNetConn, NewConn,
      ProxyAdapter.Name, ProxyAdapter.base, hs]
  | ShadowSocks ss dialer =>
    simp only [ProxyAdapter.base, Option.some_bind] at hm
    simp only [ProxyAdapter.StreamConn] at hs
    simp [ProxyAdapter.SetDialer, ProxyAdapter.DialContext, hm, he, conn.toNetConn, NewConn,
      ProxyAdapter.Name, ProxyAdapter.base, hs]
  | ShadowSocksR ssr dialer =>
    simp only [ProxyAdapter.base, Option.some_bind] at hm
    simp only [ProxyAdapter.StreamConn] at hs
    simp [ProxyAdapter.SetDialer, ProxyAdapter.DialContext, hm, he, conn.toNetConn, NewConn,
      ProxyAdapter.Name, ProxyAdapter.base, hs]
  | Trojan t dialer =>
    simp only [ProxyAdapter.base, Option.some_bind] at hm
    simp only [ProxyAdapter.StreamConn] at hs
    simp [ProxyAdapter.SetDialer, ProxyAdapter.DialContext, hm, he, conn.toNetConn, NewConn,
      ProxyAdapter.Name, ProxyAdapter.base, hs]

theorem SetDialer_dialer (A x : ProxyAdapter) (h : A ≠ .nil) : (A.SetDialer x).dialer = x := by
  cases A <;> simp_all [ProxyAdapter.SetDialer, ProxyAdapter.dialer]

theorem SetDialer_base (A x : ProxyAdapter) : (A.SetDialer x).base = A.base := by
  cases A <;> rfl

theorem SetDialer_ne_Direct (A x : ProxyAdapter) (hdirect : ∀ d0 x0, A ≠ .Direct d0 x0) :
    ∀ d0 x0, A.SetDialer x ≠ .Direct d0 x0 := by
  intro d0 x0
  cases A with
  | Direct d dialer => exact absurd rfl (hdirect d dialer)
  | nil => simp [ProxyAdapter.SetDialer]
  | Socks5 ss dialer => simp [ProxyAdapter.SetDialer]
  | ShadowSocks ss dialer => simp [ProxyAdapter.SetDialer]
  | ShadowSocksR ssr dialer => simp [ProxyAdapter.SetDialer]
  | Trojan t dialer => simp [ProxyAdapter.SetDialer]

end DialFacts

/-- C7 (amended): no implicit Direct upstream.  The constructors leave `dialer`
nil, and for every Socks5, ShadowSocks, ShadowSocksR or Trojan adapter whose
`dialer` is nil `DialContext` faults (nil dereference) before anything is
dialled.  Once `SetDialer` has installed a Direct adapter and the adapter's
own address parsed, `DialContext` hands that address to the operating-system
dialer: a failure comes back wrapped by the Direct adapter, and after a
success the adapter's `StreamConn` runs on that connection. -/
theorem DialContext_needs_dialer (W : Type) (env : Env W) (lib : Lib) (A : ProxyAdapter)
    (d : Direct) (x : ProxyAdapter) (m : Metadata) (metadata : Option Metadata) (w : W)
    (hdirect : ∀ d0 x0, A ≠ .Direct d0 x0) :
    (∀ o, (NewSocks5 o).dialer = .nil) ∧
    (∀ o, (NewShadowSocks lib o).1.dialer = .nil) ∧
    (∀ o, (NewShadowSocksR lib o).1.dialer = .nil) ∧
    (∀ o, (NewTrojan o).1.dialer = .nil) ∧
    (A.dialer = .nil → A.DialContext env metadata w = .fault) ∧
    (A.base.bind (·.addrMetadata) = some m →
      ∀ e, (env.dialContext m.RemoteAddress w).1.2 = some e →
        (A.SetDialer (.Direct d x)).DialContext env metadata w
          = .ret none (some (.wrap (d.Base.addr ++ " connect error: ".toList) e))
              (env.dialContext m.RemoteAddress w).2) ∧
    (A.base.bind (·.addrMetadata) = some m →
      (env.dialContext m.RemoteAddress w).1.2 = none →
      ∀ c w2,
        A.StreamConn env (.conn (env.dialContext m.RemoteAddress w).1.1 [d.Base.name]) metadata
            (env.tcpKeepAlive (env.dialContext m.RemoteAddress w).1.1
              (env.dialContext m.RemoteAddress w).2) = .ret c none w2 →
        (A.SetDialer (.Direct d x)).DialContext env metadata w
          = .ret (some (NewConn c (A.SetDialer (.Direct d x)))) none w2) := by
  refine ⟨fun o => rfl, ?_, ?_, fun o => rfl, ?_, ?_, ?_⟩
  · intro o
    simp only [NewShadowSocks, NewShadowSocks.build]
    repeat' split
    all_goals rfl
  · intro o
    simp only [NewShadowSocksR, NewShadowSocksR.withCipher]
    repeat' split
    all_goals rfl
  · exact DialContext_fault_of_nil_dialer env A metadata w hdirect
  · intro hm e he
    have hnil : A ≠ .nil := by
      intro h0
      rw [h0] at hm
      simp [ProxyAdapter.base] at hm
    apply DialContext_upstream_error_forwarded env (A.SetDialer (.Direct d x)) metadata w _ none
      (.wrap (d.Base.addr ++ " connect error: ".toList) e) (SetDialer_ne_Direct A _ hdirect)
    rw [SetDialer_dialer A _ hnil, SetDialer_base, hm]
    exact Direct_DialContext_error env d x m w e he
  · intro hm he c w2 hs
    exact DialContext_over_Direct_ok env A d x m metadata w w2 c hdirect hm he hs

/-- Witness for C7: the SOCKS5 adapter of the examples, before and after
`SetDialer(Direct)`. -/
theorem DialContext_needs_dialer_witness :
    exampleUnwired.DialContext (scriptedEnv none none) (some exampleDestination) [] = .fault ∧
    (exampleUnwired.SetDialer NewDirect.1).DialContext (scriptedEnv none none)
        (some exampleDestination) []
      = .ret (some (NewConn (.conn (.raw 0) [[]]) (exampleUnwired.SetDialer NewDirect.1))) none
          ["10.0.0.1:1080".toList] :=
  have h := DialContext_needs_dialer (List GoString) (scriptedEnv none none) sampleLib
    exampleUnwired { Base := { tp := .Shadowsocks } } .nil
    { DstIP := some [10, 0, 0, 1], AddrType := ATypIPv4, DstPort := "1080".toList }
    (some exampleDestination) [] (fun d0 x0 h => by cases h)
  ⟨h.2.2.2.2.1 rfl, h.2.2.2.2.2.2 rfl rfl _ _ rfl⟩

/-- Counterexample to C7: a SOCKS5 adapter as `NewSocks5` returns it, in a
world where every dial and handshake would succeed; `DialContext` faults. -/
theorem DialContext_unset_dialer_faults :
    exampleUnwired.dialer = .nil ∧
    exampleUnwired.DialContext (scriptedEnv none none) (some exampleDestination) [] = .fault :=
  ⟨rfl, rfl⟩

/-- C8 (amended): an upstream dial failure is handed back, not annotated.  For
every Socks5, ShadowSocks, ShadowSocksR or Trojan adapter and every error `e`
its upstream dialer returns, `DialContext` returns a nil connection and `e`
itself, in the world the single upstream call left (no second dial).  Only
the Direct adapter annotates: for an error `e` of the operating-system dial it
returns a nil connection and `fmt.Errorf("%s connect error: %w", d.addr, e)`,
which wraps `e` and starts with its own `Addr()`, again after that single
dial. -/
theorem DialContext_upstream_failure (W : Type) (env : Env W) (A : ProxyAdapter)
    (d : Direct) (x : ProxyAdapter) (m : Metadata) (metadata : Option Metadata)
    (w w1 : W) (c0 : Option conn) (e : GoError)
    (hdirect : ∀ d0 x0, A ≠ .Direct d0 x0) :
    (A.dialer.DialContext env (A.base.bind (·.addrMetadata)) w = .ret c0 (some e) w1 →
      A.DialContext env metadata w = .ret none (some e) w1) ∧
    ((env.dialContext m.RemoteAddress w).1.2 = some e →
      (ProxyAdapter.Direct d x).DialContext env (some m) w
        = .ret none (some (.wrap (d.Base.addr ++ " connect error: ".toList) e))
            (env.dialContext m.RemoteAddress w).2 ∧
      (GoError.wrap (d.Base.addr ++ " connect error: ".toList) e).Is e = true ∧
      (ProxyAdapter.Direct d x).Addr <+:
        (GoError.wrap (d.Base.addr ++ " connect error: ".toList) e).Error) := by
  refine ⟨DialContext_upstream_error_forwarded env A metadata w w1 c0 e hdirect, ?_⟩
  intro he
  refine ⟨Direct_DialContext_error env d x m w e he, ?_, ?_⟩
  · cases e <;> simp [GoError.Is]
  · simp only [ProxyAdapter.Addr, ProxyAdapter.base, GoError.Error, List.append_assoc]
    exact List.prefix_append _ _

/-- Witness for C8: the SOCKS5 adapter of the examples over a Direct upstream
whose dial is refused. -/
theorem DialContext_upstream_failure_witness :
    (exampleUnwired.SetDialer NewDirect.1).DialContext
        (scriptedEnv (some (.new "connection refused".toList)) none)
        (some exampleDestination) []
      = .ret none
          (some (.wrap " connect error: ".toList (.new "connection refused".toList)))
          ["10.0.0.1:1080".toList] :=
  (DialContext_upstream_failure (List GoString)
    (scriptedEnv (some (.new "connection refused".toList)) none)
    (exampleUnwired.SetDialer NewDirect.1) { Base := { tp := .Shadowsocks } } .nil
    exampleDestination (some exampleDestination) [] ["10.0.0.1:1080".toList] none
    (.wrap " connect error: ".toList (.new "connection refused".toList))
    (fun d0 x0 h => by cases h)).1 rfl

/-- Counterexample to C8: the SOCKS5 adapter `10.0.0.1:1080` over a Direct
upstream whose dial is refused returns the upstream error as it is; its text
does not contain the adapter's address. -/
theorem DialContext_error_without_address :
    ∃ err w1,
      (exampleUnwired.SetDialer NewDirect.1).DialContext
          (scriptedEnv (some (.new "connection refused".toList)) none)
          (some exampleDestination) []
        = .ret none (some err) w1 ∧
      (exampleUnwired.SetDialer NewDirect.1).Addr = "10.0.0.1:1080".toList ∧
      err.Error = " connect error: connection refused".toList ∧
      ¬ ((exampleUnwired.SetDialer NewDirect.1).Addr <:+: err.Error) :=
  ⟨.wrap " connect error: ".toList (.new "connection refused".toList),
    ["10.0.0.1:1080".toList], rfl, rfl, rfl, by decide⟩

/-! ## The latency probe -/

/-- C9: every failure of `URLTest` comes with an empty body and latency 0.
Whenever `URLTest` returns an error the body is empty and the latency is 0 (so
a non-empty body or a non-zero latency comes only with a nil error), and the
error is that of the failing step: `urlToMetadata`, `http.NewRequest`,
`client.Do` (which covers dialling and resolving), or `ioutil.ReadAll`. -/
theorem URLTest_failure (W : Type) (env : Env W) (p : Proxy) (URL : GoString)
    (resolveAddr : Bool) (w : W) :
    (∀ body t err w1, p.URLTest env URL resolveAddr w = .ret (body, t) (some err) w1 →
      body = [] ∧ t = 0) ∧
    (∀ e, (env.urlToMetadata URL).2 = some e →
      p.URLTest env URL resolveAddr w = .ret ([], 0) (some e) w) ∧
    (∀ e, (env.urlToMetadata URL).2 = none → env.NewRequest URL = some e →
      p.URLTest env URL resolveAddr w = .ret ([], 0) (some e) w) ∧
    (∀ resp e s1, (env.urlToMetadata URL).2 = none → env.NewRequest URL = none →
      env.Do (p.urlTestDialContext env resolveAddr) URL ((env.urlToMetadata URL).1, w)
        = .ret resp (some e) s1 →
      p.URLTest env URL resolveAddr w = .ret ([], 0) (some e) s1.2) ∧
    (∀ resp e s1, (env.urlToMetadata URL).2 = none → env.NewRequest URL = none →
      env.Do (p.urlTestDialContext env resolveAddr) URL ((env.urlToMetadata URL).1, w)
        = .ret resp none s1 →
      (env.ReadAll resp s1.2).1.2 = some e →
      p.URLTest env URL resolveAddr w
        = .ret ([], 0) (some e) (env.bodyClose resp (env.ReadAll resp s1.2).2)) := by
  refine ⟨?_, ?_, ?_, ?_, ?_⟩
  · intro body t err w1 h
    simp only [Proxy.URLTest] at h
    repeat' split at h
    all_goals first
      | (cases h; exact ⟨rfl, rfl⟩)
      | cases h
  · intro e he
    simp [Proxy.URLTest, he]
  · intro e hm he
    simp [Proxy.URLTest, hm, he]
  · intro resp e s1 hm hr hd
    simp [Proxy.URLTest, hm, hr, hd]
  · intro resp e s1 hm hr hd hra
    simp [Proxy.URLTest, hm, hr, hd, hra]

/-- Witness for C9: probing through the SOCKS5 adapter of the examples when
the destination of the dial is unreachable. -/
theorem URLTest_failure_witness :
    Proxy.URLTest (scriptedEnv (some (.new "connection refused".toList)) none)
        (NewProxy (exampleUnwired.SetDialer NewDirect.1)) "http://example.com/".toList false []
      = .ret ([], 0)
          (some (.wrap " connect error: ".toList (.new "connection refused".toList)))
          ["10.0.0.1:1080".toList] :=
  (URLTest_failure (List GoString) (scriptedEnv (some (.new "connection refused".toList)) none)
    (NewProxy (exampleUnwired.SetDialer NewDirect.1)) "http://example.com/".toList false
    []).2.2.2.1 { id := 0 }
    (.wrap " connect error: ".toList (.new "connection refused".toList))
    ({ Host := "http://example.com/".toList, DstPort := "80".toList,
       AddrType := ATypDomainName }, ["10.0.0.1:1080".toList])
    rfl rfl rfl

/-! ## Constructing a ShadowsocksR adapter -/

/-- C10: `NewShadowSocksR` rejects what is not a stream cipher.  When the
cipher name is unknown (`core.PickCipher` returns an error) or resolves to a
cipher whose dynamic type is not `*core.StreamCipher`, `NewShadowSocksR`
returns a nil adapter and a non-nil error. -/
theorem NewShadowSocksR_rejects_non_stream (lib : Lib) (option : ShadowSocksROption)
    (h : (lib.PickCipher option.Cipher option.Password).2 ≠ none ∨
      ∀ ciph, (lib.PickCipher option.Cipher option.Password).1 ≠ .stream ciph) :
    (NewShadowSocksR lib option).1 = .nil ∧ (NewShadowSocksR lib option).2 ≠ none := by
  simp only [NewShadowSocksR]
  cases he : (lib.PickCipher option.Cipher option.Password).2 with
  | some err => simp
  | none =>
    rcases h with h | h
    · exact absurd he h
    · cases hc : (lib.PickCipher option.Cipher option.Password).1 with
      | nil => simp
      | other id => simp
      | stream ciph => exact absurd hc (h ciph)

/-- Witness for C10: an AEAD cipher name. -/
theorem NewShadowSocksR_rejects_non_stream_witness :
    (NewShadowSocksR sampleLib
        { Name := "ssr".toList, Server := "1.2.3.4".toList, Port := 11800,
          Password := "1234".toList, Cipher := "aes-256-gcm".toList,
          Obfs := "http_simple".toList, Protocol := "origin".toList }).1 = .nil ∧
    (NewShadowSocksR sampleLib
        { Name := "ssr".toList, Server := "1.2.3.4".toList, Port := 11800,
          Password := "1234".toList, Cipher := "aes-256-gcm".toList,
          Obfs := "http_simple".toList, Protocol := "origin".toList }).2 ≠ none :=
  NewShadowSocksR_rejects_non_stream sampleLib
    { Name := "ssr".toList, Server := "1.2.3.4".toList, Port := 11800,
      Password := "1234".toList, Cipher := "aes-256-gcm".toList,
      Obfs := "http_simple".toList, Protocol := "origin".toList }
    (Or.inr (fun ciph h => by
      have hp : (sampleLib.PickCipher "aes-256-gcm".toList "1234".toList).1 = .other 1 := rfl
      rw [hp] at h
      cases h))

/-! ## The kind tag of the constructed adapters -/

/-- C11 (the code at the failing input, next to its siblings): the adapter
that `NewDirect()` returns, with a nil error, reports the kind `Shadowsocks`
through `Type()` and not `Direct`, because `NewDirect` fills `tp` with
`C.Shadowsocks`.  The other four constructors do fill in their own kind:
whatever the options, every adapter that `NewSocks5`, `NewShadowSocks`,
`NewShadowSocksR` or `NewTrojan` returns reports `Socks5`, `Shadowsocks`,
`ShadowsocksR` or `Trojan`. -/
theorem NewDirect_Type_is_Shadowsocks :
    (NewDirect.2 = none ∧ NewDirect.1.Type = some .Shadowsocks ∧
      NewDirect.1.Type ≠ some .Direct) ∧
    (∀ option : Socks5Option, (NewSocks5 option).Type = some .Socks5) ∧
    (∀ (lib : Lib) (option : ShadowSocksOption), (NewShadowSocks lib option).1 ≠ .nil →
      (NewShadowSocks lib option).1.Type = some .Shadowsocks) ∧
    (∀ (lib : Lib) (option : ShadowSocksROption), (NewShadowSocksR lib option).1 ≠ .nil →
      (NewShadowSocksR lib option).1.Type = some .ShadowsocksR) ∧
    (∀ option : TrojanOption, (NewTrojan option).1.Type = some .Trojan) := by
  refine ⟨⟨rfl, rfl, by decide⟩, fun _ => rfl, ?_, ?_, fun _ => rfl⟩
  · intro lib option h
    simp only [NewShadowSocks] at h ⊢
    repeat' split
    all_goals first
      | rfl
      | (exfalso; revert h; simp_all)
  · intro lib option h
    simp only [NewShadowSocksR, NewShadowSocksR.withCipher] at h ⊢
    repeat' split
    all_goals first
      | rfl
      | (exfalso; revert h; simp_all)

/-- Witness for C11: the sibling constructors at concrete options, where each
returns an adapter. -/
theorem NewDirect_Type_is_Shadowsocks_witness :
    (NewShadowSocks sampleLib
        (exampleObfsOption "10.0.0.3".toList "tls".toList)).1.Type = some .Shadowsocks ∧
    (NewShadowSocksR sampleLib
        { Name := "ssr".toList, Server := "1.2.3.4".toList, Port := 11800,
          Password := "1234".toList, Cipher := "aes-256-cfb".toList,
          Obfs := "http_simple".toList, Protocol := "origin".toList }).1.Type
      = some .ShadowsocksR :=
  ⟨NewDirect_Type_is_Shadowsocks.2.2.1 sampleLib
      (exampleObfsOption "10.0.0.3".toList "tls".toList) (fun h => by cases h),
   NewDirect_Type_is_Shadowsocks.2.2.2.1 sampleLib
      { Name := "ssr".toList, Server := "1.2.3.4".toList, Port := 11800,
        Password := "1234".toList, Cipher := "aes-256-cfb".toList,
        Obfs := "http_simple".toList, Protocol := "origin".toList } (fun h => by cases h)⟩


/-! ## Plugin validation in `NewShadowSocks` -/

/-- Go `NewMetadata` returns a nil error exactly when it returns a descriptor. -/
theorem metadataErr_eq_none_iff (r : Except GoError Metadata) :
    metadataErr r = none ↔ ∃ md, r = .ok md := by
  cases r with
  | ok md => exact ⟨fun _ => ⟨md, rfl⟩, fun _ => rfl⟩
  | error err =>
    constructor
    · intro h
      cases h
    · rintro ⟨md, h⟩
      cases h

/-- Go `NewShadowSocks` with the plugin `obfs`, after the cipher was picked and
the plugin options were decoded. -/
theorem NewShadowSocks_obfs (lib : Lib) (option : ShadowSocksOption) (opts : simpleObfsOption)
    (hc : (lib.PickCipher option.Cipher option.Password).2 = none)
    (hp : option.Plugin = "obfs".toList)
    (hd : lib.DecodeSimpleObfs option.PluginOpts { Host := "bing.com".toList } = (opts, none)) :
    NewShadowSocks lib option =
      if opts.Mode ≠ "tls".toList ∧ opts.Mode ≠ "http".toList then
        (.nil, some (.new ("ss ".toList ++ JoinHostPort option.Server (Itoa option.Port) ++
          " obfs mode error: ".toList ++ opts.Mode)))
      else
        NewShadowSocks.build option (JoinHostPort option.Server (Itoa option.Port))
          (lib.PickCipher option.Cipher option.Password).1 opts.Mode (some opts) none := by
  simp only [NewShadowSocks, hc, hp, hd, if_true]

/-- Go `NewShadowSocks` with the plugin `v2ray-plugin`, after the cipher was
picked and the plugin options were decoded. -/
theorem NewShadowSocks_v2ray (lib : Lib) (option : ShadowSocksOption) (opts : v2rayObfsOption)
    (hc : (lib.PickCipher option.Cipher option.Password).2 = none)
    (hp : option.Plugin = "v2ray-plugin".toList)
    (hd : lib.DecodeV2rayObfs option.PluginOpts { Host := "bing.com".toList, Mux := true }
      = (opts, none)) :
    NewShadowSocks lib option =
      if opts.Mode ≠ "websocket".toList then
        (.nil, some (.new ("ss ".toList ++ JoinHostPort option.Server (Itoa option.Port) ++
          " obfs mode error: ".toList ++ opts.Mode)))
      else
        NewShadowSocks.build option (JoinHostPort option.Server (Itoa option.Port))
          (lib.PickCipher option.Cipher option.Password).1 opts.Mode none
          (some
            (if opts.TLS then
              { Host := opts.Host, Path := opts.Path, Headers := opts.Headers, Mux := opts.Mux,
                TLS := true, SkipCertVerify := opts.SkipCertVerify }
            else
              { Host := opts.Host, Path := opts.Path, Headers := opts.Headers,
                Mux := opts.Mux })) := by
  have hne : ("v2ray-plugin".toList : GoString) ≠ "obfs".toList := by decide
  simp only [NewShadowSocks, hc, hp, hd, if_neg hne, if_true]

/-- C12 (counterexample): a valid cipher, decodable `obfs` options with the
mode `tls`, and the server written as the bracketed literal `[::1]`.
`JoinHostPort` brackets the server once more, `NewMetadata` rejects
`[[::1]]:8388`, and `NewShadowSocks` returns that error although the mode is
supported; the adapter is returned next to the error. -/
theorem NewShadowSocks_supported_mode_fails :
    (sampleLib.PickCipher (exampleObfsOption "[::1]".toList "tls".toList).Cipher
      (exampleObfsOption "[::1]".toList "tls".toList).Password).2 = none ∧
    sampleLib.DecodeSimpleObfs (exampleObfsOption "[::1]".toList "tls".toList).PluginOpts
        { Host := "bing.com".toList }
      = ({ Mode := "tls".toList, Host := "bing.com".toList }, none) ∧
    (NewShadowSocks sampleLib (exampleObfsOption "[::1]".toList "tls".toList)).2
      = some (.addrError "missing port in address".toList "[[::1]]:8388".toList) ∧
    (NewShadowSocks sampleLib (exampleObfsOption "[::1]".toList "tls".toList)).1 ≠ .nil :=
  ⟨rfl, rfl, rfl, fun h => by cases h⟩

/-- C12 (amended): plugin validation in `NewShadowSocks`, given a cipher that
`core.PickCipher` accepts and plugin options that decode (onto the defaults
host `bing.com` for `obfs`, host `bing.com` and mux `true` for
`v2ray-plugin`).  With the plugin `obfs` an adapter is returned exactly when
the decoded mode is `tls` or `http`, with `v2ray-plugin` exactly when it is
`websocket`; the returned error is nil exactly when moreover `NewMetadata`
accepts the joined `server:port` address.  A returned adapter has the decoded
mode as its obfuscation mode and carries the decoded options; on an
unsupported mode the result is a nil adapter and the error
`ss <addr> obfs mode error: <mode>`. -/
theorem NewShadowSocks_plugin_validation (lib : Lib) (option : ShadowSocksOption)
    (hc : (lib.PickCipher option.Cipher option.Password).2 = none) :
    (∀ opts : simpleObfsOption, option.Plugin = "obfs".toList →
      lib.DecodeSimpleObfs option.PluginOpts { Host := "bing.com".toList } = (opts, none) →
      ((NewShadowSocks lib option).1 ≠ .nil ↔
        (opts.Mode = "tls".toList ∨ opts.Mode = "http".toList)) ∧
      ((NewShadowSocks lib option).2 = none ↔
        ((opts.Mode = "tls".toList ∨ opts.Mode = "http".toList) ∧
          ∃ md, NewMetadata (JoinHostPort option.Server (Itoa option.Port)) = .ok md)) ∧
      (∀ ss dialer, (NewShadowSocks lib option).1 = .ShadowSocks ss dialer →
        ss.obfsMode = opts.Mode ∧ ss.obfsOption = some opts ∧ ss.v2rayOption = none) ∧
      (¬ (opts.Mode = "tls".toList ∨ opts.Mode = "http".toList) →
        NewShadowSocks lib option =
          (.nil, some (.new ("ss ".toList ++ JoinHostPort option.Server (Itoa option.Port) ++
            " obfs mode error: ".toList ++ opts.Mode))))) ∧
    (∀ opts : v2rayObfsOption, option.Plugin = "v2ray-plugin".toList →
      lib.DecodeV2rayObfs option.PluginOpts { Host := "bing.com".toList, Mux := true }
        = (opts, none) →
      ((NewShadowSocks lib option).1 ≠ .nil ↔ opts.Mode = "websocket".toList) ∧
      ((NewShadowSocks lib option).2 = none ↔
        (opts.Mode = "websocket".toList ∧
          ∃ md, NewMetadata (JoinHostPort option.Server (Itoa option.Port)) = .ok md)) ∧
      (∀ ss dialer, (NewShadowSocks lib option).1 = .ShadowSocks ss dialer →
        ss.obfsMode = opts.Mode ∧ ss.obfsOption = none ∧
        ∃ v, ss.v2rayOption = some v ∧ v.Host = opts.Host ∧ v.Path = opts.Path ∧
          v.Headers = opts.Headers ∧ v.Mux = opts.Mux ∧ v.TLS = opts.TLS ∧
          v.SkipCertVerify = (opts.TLS && opts.SkipCertVerify)) ∧
      (opts.Mode ≠ "websocket".toList →
        NewShadowSocks lib option =
          (.nil, some (.new ("ss ".toList ++ JoinHostPort option.Server (Itoa option.Port) ++
            " obfs mode error: ".toList ++ opts.Mode))))) := by
  constructor
  · intro opts hp hd
    rw [NewShadowSocks_obfs lib option opts hc hp hd]
    by_cases hm : opts.Mode = "tls".toList ∨ opts.Mode = "http".toList
    · have hn : ¬ (opts.Mode ≠ "tls".toList ∧ opts.Mode ≠ "http".toList) := by
        rintro ⟨h1, h2⟩
        rcases hm with h | h
        · exact h1 h
        · exact h2 h
      rw [if_neg hn]
      refine ⟨⟨fun _ => hm, fun _ h => by cases h⟩, ?_, ?_, fun h => absurd hm h⟩
      · simp only [NewShadowSocks.build, metadataErr_eq_none_iff]
        exact ⟨fun h => ⟨hm, h⟩, fun h => h.2⟩
      · intro ss dialer h
        simp only [NewShadowSocks.build] at h
        cases h
        exact ⟨rfl, rfl, rfl⟩
    · have hy : opts.Mode ≠ "tls".toList ∧ opts.Mode ≠ "http".toList :=
        ⟨fun h => hm (Or.inl h), fun h => hm (Or.inr h)⟩
      rw [if_pos hy]
      refine ⟨⟨fun h => absurd rfl h, fun h => absurd h hm⟩, ?_, ?_, fun _ => rfl⟩
      · exact ⟨fun h => (by cases h), fun h => absurd h.1 hm⟩
      · intro ss dialer h
        cases h
  · intro opts hp hd
    rw [NewShadowSocks_v2ray lib option opts hc hp hd]
    by_cases hm : opts.Mode = "websocket".toList
    · rw [if_neg (not_not.mpr hm)]
      refine ⟨⟨fun _ => hm, fun _ h => by cases h⟩, ?_, ?_, fun h => absurd hm h⟩
      · simp only [NewShadowSocks.build, metadataErr_eq_none_iff]
        exact ⟨fun h => ⟨hm, h⟩, fun h => h.2⟩
      · intro ss dialer h
        simp only [NewShadowSocks.build] at h
        cases h
        refine ⟨rfl, rfl, _, rfl, ?_⟩
        cases opts.TLS <;> simp
    · rw [if_pos hm]
      refine ⟨⟨fun h => absurd rfl h, fun h => absurd h hm⟩, ?_, ?_, fun _ => rfl⟩
      · exact ⟨fun h => (by cases h), fun h => absurd h.1 hm⟩
      · intro ss dialer h
        cases h

/-- Witness for C12: the server `10.0.0.3`, port 8388, an accepted cipher.
With `obfs` in mode `tls` and with `v2ray-plugin` in mode `websocket` the
construction succeeds; with `v2ray-plugin` in mode `tls` it returns the mode
error and no adapter. -/
theorem NewShadowSocks_plugin_validation_witness :
    (NewShadowSocks sampleLib (exampleObfsOption "10.0.0.3".toList "tls".toList)).2 = none ∧
    (NewShadowSocks sampleLib
      (exampleV2rayOption "10.0.0.3".toList "websocket".toList)).2 = none ∧
    NewShadowSocks sampleLib (exampleV2rayOption "10.0.0.3".toList "tls".toList)
      = (.nil, some (.new "ss 10.0.0.3:8388 obfs mode error: tls".toList)) :=
  ⟨((NewShadowSocks_plugin_validation sampleLib
        (exampleObfsOption "10.0.0.3".toList "tls".toList) rfl).1
      { Mode := "tls".toList, Host := "bing.com".toList } rfl rfl).2.1.mpr
      ⟨Or.inl rfl, _, rfl⟩,
   ((NewShadowSocks_plugin_validation sampleLib
        (exampleV2rayOption "10.0.0.3".toList "websocket".toList) rfl).2
      { Mode := "websocket".toList, Host := "bing.com".toList, Mux := true } rfl rfl).2.1.mpr
      ⟨rfl, _, rfl⟩,
   ((NewShadowSocks_plugin_validation sampleLib
        (exampleV2rayOption "10.0.0.3".toList "tls".toList) rfl).2
      { Mode := "tls".toList, Host := "bing.com".toList, Mux := true } rfl rfl).2.2.2
      (by decide)⟩


/-! ## The datagram socket of `Socks5.DialUDP` -/

section UDPAssociate

variable {W : Type}

/-- C13 (the code, for every outside world): in `Socks5.DialUDP`, after the
control connection `con` was dialled and the UDP-ASSOCIATE handshake `hs`
returned a bind address that `NewMetadata` accepts, let the upstream
`DialUDP` to that address return the error `e`.  The error is not looked at:
`Socks5.DialUDP` returns a packet connection that wraps the nil datagram
socket, together with a nil error. -/
theorem Socks5_DialUDP_drops_upstream_error (env : Env W) (ss : Socks5)
    (dialer : ProxyAdapter) (metadata : Option Metadata) (w w1 w3 : W) (con : Option conn)
    (b : Bytes) (md : Metadata) (pc : Option packetConn) (e : GoError)
    (hdial : dialer.DialContext env ss.Base.addrMetadata w = .ret con none w1)
    (haddr : env.serializesSocksAddr metadata = some b)
    (hhs : (env.ClientHandshake
      (if ss.tls then .tlsClient (conn.toNetConn con) ss.tlsConfig else conn.toNetConn con)
      b CmdUDPAssociate ss.userOf
      (if ss.tls then
        (env.Handshake (.tlsClient (conn.toNetConn con) ss.tlsConfig) w1).2 else w1)).1.2 = none)
    (hmd : NewMetadata (env.addrString (env.ClientHandshake
      (if ss.tls then .tlsClient (conn.toNetConn con) ss.tlsConfig else conn.toNetConn con)
      b CmdUDPAssociate ss.userOf
      (if ss.tls then
        (env.Handshake (.tlsClient (conn.toNetConn con) ss.tlsConfig) w1).2 else w1)).1.1)
      = .ok md)
    (hudp : dialer.DialUDP env (some md) (env.ClientHandshake
      (if ss.tls then .tlsClient (conn.toNetConn con) ss.tlsConfig else conn.toNetConn con)
      b CmdUDPAssociate ss.userOf
      (if ss.tls then
        (env.Handshake (.tlsClient (conn.toNetConn con) ss.tlsConfig) w1).2 else w1)).2
      = .ret pc (some e) w3) :
    pc = none ∧
    (ProxyAdapter.Socks5 ss dialer).DialUDP env metadata w =
      .ret
        (some (newPacketConn
          (.socksPacketConn .nil
            (env.addrUDPAddr (env.ClientHandshake
              (if ss.tls then .tlsClient (conn.toNetConn con) ss.tlsConfig
                else conn.toNetConn con)
              b CmdUDPAssociate ss.userOf
              (if ss.tls then
                (env.Handshake (.tlsClient (conn.toNetConn con) ss.tlsConfig) w1).2
                else w1)).1.1)
            (if ss.tls then .tlsClient (conn.toNetConn con) ss.tlsConfig
              else conn.toNetConn con))
          (.Socks5 ss dialer)))
        none
        (env.goDrain
          (if ss.tls then .tlsClient (conn.toNetConn con) ss.tlsConfig else conn.toNetConn con)
          .nil w3) := by
  have hpc : pc = none := by
    rcases DialUDP_conn_xor_error env dialer (some md) _ w3 pc (some e) hudp with h | h
    · cases h.2
    · exact h.1
  subst hpc
  refine ⟨rfl, ?_⟩
  cases htls : ss.tls with
  | false =>
    simp only [htls, Bool.false_eq_true, if_false] at hhs hmd hudp
    simp [ProxyAdapter.DialUDP, hdial, haddr, htls, hhs, hmd, hudp, packetConn.toNetPacketConn]
  | true =>
    simp only [htls, if_true] at hhs hmd hudp
    simp [ProxyAdapter.DialUDP, hdial, haddr, htls, hhs, hmd, hudp, packetConn.toNetPacketConn]

end UDPAssociate

/-- Witness for C13: the SOCKS5 adapter `B` of the examples over a Direct
upstream, in the world where opening a local datagram socket fails.  The
upstream `Direct.DialUDP` to the relay address `127.0.0.1:0` returns
`(nil, err)`, and `Socks5.DialUDP` returns a packet connection around the nil
socket with a nil error. -/
theorem Socks5_DialUDP_drops_upstream_error_witness :
    NewDirect.1.DialUDP (noDatagramEnv (.new "socket: too many open files".toList))
        (some { DstIP := some [127, 0, 0, 1], DstPort := "0".toList, AddrType := ATypIPv4 })
        ["10.0.0.2:1080".toList]
      = .ret none (some (.new "socket: too many open files".toList))
          ["10.0.0.2:1080".toList] ∧
    exampleB.DialUDP (noDatagramEnv (.new "socket: too many open files".toList))
        (some resolverMetadata) []
      = .ret
          (some { PacketConn := .socksPacketConn .nil none (.conn (.raw 0) [[]]),
                  chain := ["B".toList] })
          none ["10.0.0.2:1080".toList] :=
  ⟨rfl,
   (Socks5_DialUDP_drops_upstream_error
      (noDatagramEnv (.new "socket: too many open files".toList))
      { Base := { name := "B".toList, addr := "10.0.0.2:1080".toList, tp := .Socks5,
                  addrMetadata := some { DstIP := some [10, 0, 0, 2],
                                         DstPort := "1080".toList, AddrType := ATypIPv4 } },
        user := [], pass := [], tls := false, skipCertVerify := false, tlsConfig := none }
      NewDirect.1 (some resolverMetadata) [] ["10.0.0.2:1080".toList] ["10.0.0.2:1080".toList]
      (some { Conn := .raw 0, chain := [[]] }) []
      { DstIP := some [127, 0, 0, 1], DstPort := "0".toList, AddrType := ATypIPv4 }
      none (.new "socket: too many open files".toList) rfl rfl rfl rfl rfl).2⟩


end Bridge
